import Mathlib

/-!
Warm-pool executor (`executor/poolmgr`): shallow embedding and verified properties.

The definitions follow `executor/poolmgr/gp.go` and `executor/poolmgr/gpm.go`.
Calls that leave the process (orchestrator API, controller client, HTTP to the
fetcher and to the runtime, the clock, the random source, the Go standard
library) are explicit oracle fields; everything the Go code itself decides is
translated statement by statement.  Durations are natural numbers of
nanoseconds, as in Go's `time.Duration`.
-/

namespace Poolmgr

/-! ## Errors -/

/-- The `Err` field of a `*url.Error`: either a `*net.OpError` (with its `Op`)
or some other error. -/
inductive NetErr where
  | opError (op : String)
  | other (text : String)
  deriving DecidableEq, Repr

/-- Go `error` values seen by the pool code. -/
inductive GoError where
  /-- Go `errors.New(text)` -/
  | text (s : String)
  /-- a `*url.Error` as returned by `http.Post` -/
  | urlError (err : NetErr)
  /-- Result of `fission.MakeErrorFromHTTP(resp)` for a response with this status code -/
  | fromHTTP (status : Int)
  /-- an error value returned by an external client (orchestrator, controller,
  fetcher, cache, encoder) -/
  | external (s : String)
  deriving DecidableEq, Repr

/-! ## Data model -/

/-- Go `map[string]string` literal, as an association list. -/
abbrev Labels := List (String × String)

/-- The fields of `metav1.ObjectMeta` that the pool code reads or writes. -/
structure ObjectMeta where
  name : String := ""
  ns : String := ""
  uid : String := ""
  resourceVersion : String := ""
  labels : Labels := []
  deriving DecidableEq, Repr

/-- Fields of `fission.EnvironmentSpec` read by the pool code. -/
structure EnvironmentSpec where
  version : Int
  runtimeImage : String := ""
  allowedFunctionsPerContainer : String := ""
  poolsize : Int := 0
  deriving DecidableEq, Repr

/-- Type `crd.Environment`. -/
structure Environment where
  metadata : ObjectMeta
  spec : EnvironmentSpec
  deriving DecidableEq, Repr

/-- Modelled from the spec: the constant `fission.AllowedFunctionsPerContainerInfinite`
(declared outside the given sources); the spec writes it `∞`. -/
def AllowedFunctionsPerContainerInfinite : String := "infinite"

/-- Modelled from the spec: the constant `fission.EXECUTOR_INSTANCEID_LABEL`
(declared outside the given sources); the spec names the label `executorInstanceId`. -/
def EXECUTOR_INSTANCEID_LABEL : String := "executorInstanceId"

/-- Modelled from the spec: the constant `fission.ExecutorTypePoolmgr`
(declared outside the given sources); the spec gives `executorType="poolmgr"`. -/
def ExecutorTypePoolmgr : String := "poolmgr"

/-- A namespace/name reference (package, secret or config map). -/
structure Ref where
  ns : String := ""
  name : String := ""
  deriving DecidableEq, Repr

/-- Fields of `fission.FunctionSpec` read by `specializePod`. -/
structure FunctionSpec where
  packageRef : Ref := {}
  functionName : String := ""
  secrets : List Ref := []
  configMaps : List Ref := []
  deriving DecidableEq, Repr

/-- Type `crd.Function`. -/
structure Function where
  metadata : ObjectMeta
  spec : FunctionSpec := {}
  deriving DecidableEq, Repr

/-- Type `apiv1.ContainerStatus` (the readiness flag). -/
structure ContainerStatus where
  ready : Bool
  deriving DecidableEq, Repr

/-- Type `apiv1.PodStatus`. -/
structure PodStatus where
  podIP : String := ""
  phase : String := ""
  containerStatuses : List ContainerStatus := []
  deriving DecidableEq, Repr

/-- Type `apiv1.Pod`. -/
structure Pod where
  apiVersion : String := ""
  objectMeta : ObjectMeta := {}
  status : PodStatus := {}
  deriving DecidableEq, Repr

/-- Constant `POD_PHASE_RUNNING`. -/
def POD_PHASE_RUNNING : String := "Running"

/-- The parts of `v1beta1.Deployment` that the pool code reads back: name, labels,
replica count, selector, template labels and `Status.AvailableReplicas`.  The
container and volume list of the pod template is only handed to the
orchestrator and is not represented. -/
structure Deployment where
  name : String := ""
  labels : Labels := []
  replicas : Int := 0
  matchLabels : Labels := []
  templateLabels : Labels := []
  availableReplicas : Int := 0
  deriving DecidableEq, Repr

/-- Type `GenericPool` (clients and channels are the oracle arguments of the
operations). -/
structure GenericPool where
  env : Environment
  replicas : Int := 0
  deployment : Deployment := {}
  ns : String := ""
  podReadyTimeout : Nat := 5 * 60 * 1000000000
  useSvc : Bool := false
  poolInstanceId : String := ""
  instanceId : String := ""
  labelsForPool : Labels := []
  sharedMountPath : String := "/userfunc"
  sharedSecretPath : String := "/secrets"
  sharedCfgMapPath : String := "/configs"
  deriving DecidableEq, Repr

/-- Type `fetcher.FetchRequest`. -/
structure FetchRequest where
  fetchType : String
  package : Ref
  filename : String
  secrets : List Ref
  configMaps : List Ref
  deriving DecidableEq, Repr

/-- Constant `fetcher.FETCH_DEPLOYMENT`, declared outside the given sources; the spec
gives its wire form `"deployment"`. -/
def FETCH_DEPLOYMENT : String := "deployment"

/-- Type `fission.FunctionLoadRequest`. -/
structure FunctionLoadRequest where
  filePath : String
  functionName : String
  functionMetadata : ObjectMeta
  deriving DecidableEq, Repr

/-- One `http.Post(url, contentType, body)` call. -/
structure HttpPost where
  url : String
  contentType : String
  body : String
  deriving DecidableEq, Repr

/-- What `http.Post` returned: `(resp, nil)` with the response status code, or
`(nil, err)`. -/
inductive PostResult where
  | response (statusCode : Int)
  | failed (err : GoError)
  deriving DecidableEq, Repr

/-- Observable actions of the specialization client, in program order. -/
inductive Event where
  | sleep (ns : Nat)
  | fetch (url : String) (req : FetchRequest)
  | post (req : HttpPost)
  deriving DecidableEq, Repr

/-- Everything `specializePod` obtains from outside the process. -/
structure SpecializeWorld where
  /-- Value of `os.Getenv("TEST_FETCHER_URL")` -/
  testFetcherUrl : String := ""
  /-- Value of `os.Getenv("TEST_SPECIALIZE_URL")` -/
  testSpecializeUrl : String := ""
  /-- Whether `net.ParseIP(s) != nil` -/
  parseIP : String → Bool
  /-- Result of `fissionClient.Functions(ns).Get(name)` -/
  getFunction : String → String → Except GoError Function
  /-- Result of `fetcherClient.MakeClient(url).Fetch(req)` -/
  fetch : String → FetchRequest → Option GoError
  /-- Go `filepath.Join(dir, file)` -/
  join : String → String → String
  /-- Result of `json.Marshal(loadReq)` -/
  marshal : FunctionLoadRequest → Except GoError String
  /-- outcome of the `http.Post` of load attempt `i` -/
  post : Nat → HttpPost → PostResult

/-! ## `gpm.go`: pool size policy -/

/-- Go conversion `int32(x)` of a 64-bit `int`: wraps modulo `2^32` into
`[-2^31, 2^31)`. -/
def toInt32 (x : Int) : Int := (x + 2 ^ 31) % 2 ^ 32 - 2 ^ 31

/-- Method `GenericPoolManager.getEnvPoolsize`. -/
def getEnvPoolsize (env : Environment) : Int :=
  if env.spec.version < 3 then 3 else toInt32 env.spec.poolsize

/-! ## `gp.go`: URLs -/

/-- Go `strings.Contains(s, ":")`. -/
def containsColon (s : String) : Bool := s.toList.contains ':'

/-- Function `IsIPv6`. -/
def IsIPv6 (parseIP : String → Bool) (podIP : String) : Bool :=
  parseIP podIP && containsColon podIP

/-- Method `GenericPool.getFetcherUrl`: the URL and the sleep it performs on the way
(only under the test override). -/
def getFetcherUrl (w : SpecializeWorld) (podIP : String) : String × List Event :=
  if w.testFetcherUrl.length ≠ 0 then
    (w.testFetcherUrl, [Event.sleep (5 * 1000000000)])
  else
    let isv6 := IsIPv6 w.parseIP podIP
    if isv6 = false then ("http://" ++ podIP ++ ":8000/", [])
    else ("http://[" ++ podIP ++ "]:8000/", [])

/-- Method `GenericPool.getSpecializeUrl`. -/
def getSpecializeUrl (w : SpecializeWorld) (podIP : String) (version : Int) : String :=
  if w.testSpecializeUrl.length ≠ 0 then w.testSpecializeUrl
  else
    let isv6 := IsIPv6 w.parseIP podIP
    let baseUrl := if isv6 = false then "http://" ++ podIP ++ ":8888"
                   else "http://[" ++ podIP ++ "]:8888"
    if version = 1 then baseUrl ++ "/specialize"
    else baseUrl ++ "/v" ++ toString version ++ "/specialize"

/-! ## `gp.go`: specialization -/

/-- The retry test of `specializePod` (lines 409-411): the error is a `*url.Error`
whose `Err` is a `*net.OpError` with `Op == "dial"`. -/
def isDialError : GoError → Bool
  | .urlError (.opError op) => op == "dial"
  | _ => false

/-- The local `targetFilename` of `specializePod` (lines 357-360). -/
def targetFilename (gp : GenericPool) (fn : Function) : String :=
  if gp.env.spec.version = 2 then fn.metadata.uid else "user"

/-- The `fetcher.FetchRequest` built by `specializePod` (lines 362-371). -/
def fetchRequest (gp : GenericPool) (fn : Function) : FetchRequest :=
  { fetchType := FETCH_DEPLOYMENT
    package := { ns := fn.spec.packageRef.ns, name := fn.spec.packageRef.name }
    filename := targetFilename gp fn
    secrets := fn.spec.secrets
    configMaps := fn.spec.configMaps }

/-- The `fission.FunctionLoadRequest` built by `specializePod` (lines 382-386). -/
def loadRequest (gp : GenericPool) (w : SpecializeWorld) (fn : Function) : FunctionLoadRequest :=
  { filePath := w.join gp.sharedMountPath (targetFilename gp fn)
    functionName := fn.spec.functionName
    functionMetadata := fn.metadata }

/-- The `http.Post` issued by one load attempt (lines 395-401). -/
def loadAttempt (gp : GenericPool) (w : SpecializeWorld) (podIP body : String) : HttpPost :=
  if gp.env.spec.version = 2 then
    { url := getSpecializeUrl w podIP 2, contentType := "application/json", body := body }
  else
    { url := getSpecializeUrl w podIP 1, contentType := "text/plain", body := "" }

/-- The statement through which the retry loop of `specializePod` is left. -/
inductive LoopExit where
  /-- the `return nil` inside the loop (line 405) -/
  | success
  /-- the `return err` inside the loop (line 425) -/
  | failure (err : GoError)
  /-- the loop condition `i < maxRetries` failed: trailing `return nil` (line 428) -/
  | exhausted
  deriving DecidableEq, Repr

/-- The error value returned for each exit. -/
def LoopExit.toError : LoopExit → Option GoError
  | .success => none
  | .failure err => some err
  | .exhausted => none

/-- Sleep before the next attempt, line 413:
`500 * time.Duration(2*i) * time.Millisecond`, in nanoseconds. -/
def retrySleep (i : Nat) : Nat := 500 * (2 * i) * 1000000

/-- The loop `for i := 0; i < maxRetries; i++` of `specializePod` (lines 393-426).
The first numeric argument is `maxRetries - i`, so that the loop condition
`i < maxRetries` is the successor case; the loop is entered with
`specializeLoop gp w podIP body maxRetries maxRetries 0`. -/
def specializeLoop (gp : GenericPool) (w : SpecializeWorld) (podIP body : String)
    (maxRetries : Nat) : Nat → Nat → LoopExit × List Event
  | 0, _ => (.exhausted, [])
  | remaining + 1, i =>
    let req := loadAttempt gp w podIP body
    match w.post i req with
    | .response statusCode =>
      if statusCode < 300 then (.success, [.post req])
      else (.failure (.fromHTTP statusCode), [.post req])
    | .failed err =>
      if isDialError err && decide (i < maxRetries - 1) then
        let rest := specializeLoop gp w podIP body maxRetries remaining (i + 1)
        (rest.1, .post req :: .sleep (retrySleep i) :: rest.2)
      else (.failure err, [.post req])

/-- Method `GenericPool.specializePod`: the returned error (`none` is Go's `nil`)
and the actions performed. -/
def specializePod (gp : GenericPool) (w : SpecializeWorld) (pod : Pod)
    (metadata : ObjectMeta) : Option GoError × List Event :=
  let podIP := pod.status.podIP
  if podIP.length = 0 then (some (.text "Pod has no IP"), [])
  else
    let fetcherUrl := getFetcherUrl w podIP
    match w.getFunction metadata.ns metadata.name with
    | .error err => (some err, fetcherUrl.2)
    | .ok fn =>
      let fetchReq := fetchRequest gp fn
      match w.fetch fetcherUrl.1 fetchReq with
      | some err => (some err, fetcherUrl.2 ++ [.fetch fetcherUrl.1 fetchReq])
      | none =>
        let maxRetries := 20
        let loadReq := loadRequest gp w fn
        match w.marshal loadReq with
        | .error err => (some err, fetcherUrl.2 ++ [.fetch fetcherUrl.1 fetchReq])
        | .ok body =>
          let r := specializeLoop gp w podIP body maxRetries maxRetries 0
          (r.1.toError, fetcherUrl.2 ++ [.fetch fetcherUrl.1 fetchReq] ++ r.2)

/-! ## `gp.go`: choosing a pod -/

/-- The clock of the process and the number of orchestrator calls made so far
(the index under which the next call is answered). -/
structure Clock where
  now : Nat := 0
  calls : Nat := 0
  deriving DecidableEq, Repr

/-- The orchestrator and the other nondeterministic services used while
choosing a pod; the first argument of each field is the index of the call. -/
structure Kube where
  /-- Result of `CoreV1().Pods(ns).List` for a label selector -/
  listPods : Nat → Labels → Except GoError (List Pod)
  /-- Result of `CoreV1().Pods(ns).Update(pod)` (`none` is a nil error) -/
  updatePod : Nat → Pod → Option GoError
  /-- Result of `ExtensionsV1beta1().Deployments(ns).Get(name)` -/
  getDeployment : Nat → String → Except GoError Deployment
  /-- Result of `CoreV1().Services(ns).Create(svc)`: the created service's name -/
  createSvc : Nat → String → Labels → Except GoError String
  /-- Raw value behind `rand.Intn(n)`, which is this value modulo `n` -/
  rand : Nat → Nat
  /-- Duration of each orchestrator call -/
  latency : Nat → Nat

/-- The clock after one orchestrator call. -/
def Clock.tick (c : Clock) (k : Kube) : Clock :=
  { now := c.now + k.latency c.calls, calls := c.calls + 1 }

/-- The clock after `time.Sleep(d)`. -/
def Clock.sleep (c : Clock) (d : Nat) : Clock := { c with now := c.now + d }

/-- The filter loop of `_choosePod` (lines 215-234) over `podList.Items`. -/
def readyPods : List Pod → List Pod
  | [] => []
  | pod :: items =>
    if pod.status.podIP.length = 0 || pod.status.phase != POD_PHASE_RUNNING then
      readyPods items
    else
      let podReady := pod.status.containerStatuses.foldl (fun podReady cs => podReady && cs.ready) true
      if podReady then pod :: readyPods items else readyPods items

/-- The assignment `chosenPod.ObjectMeta.Labels = newLabels` (line 255). -/
def relabel (pod : Pod) (newLabels : Labels) : Pod :=
  { pod with objectMeta := { pod.objectMeta with labels := newLabels } }

/-- Method `GenericPool.waitForReadyPod` (lines 572-592).  The result is `none` when
the fuel runs out; otherwise the returned error, the pool with its refreshed
`deployment` field, and the clock. -/
def waitForReadyPod (k : Kube) (startTime : Nat) :
    Nat → GenericPool → Clock → Option (Option GoError × GenericPool × Clock)
  | 0, _, _ => none
  | fuel + 1, gp, c =>
    match k.getDeployment c.calls gp.deployment.name with
    | .error err => some (some err, gp, c.tick k)
    | .ok depl =>
      let gp1 := { gp with deployment := depl }
      let c1 := c.tick k
      if gp1.deployment.availableReplicas > 0 then some (none, gp1, c1)
      else if c1.now - startTime > gp1.podReadyTimeout then
        some (some (.text "timeout: waited too long for pod to be ready"), gp1, c1)
      else waitForReadyPod k startTime fuel gp1 (c1.sleep (1000 * 1000000))

/-- Method `GenericPool._choosePod` (lines 197-266).  The result is `none` when the
fuel runs out; otherwise the returned pod or error, the pool and the clock. -/
def _choosePod (k : Kube) (newLabels : Labels) (startTime : Nat) :
    Nat → GenericPool → Clock → Option (Except GoError Pod × GenericPool × Clock)
  | 0, _, _ => none
  | fuel + 1, gp, c =>
    if c.now - startTime > gp.podReadyTimeout then
      some (.error (.text "timeout: waited too long to get a ready pod"), gp, c)
    else
      match k.listPods c.calls gp.deployment.matchLabels with
      | .error err => some (.error err, gp, c.tick k)
      | .ok items =>
        let c1 := c.tick k
        match readyPods items with
        | [] =>
          match waitForReadyPod k c1.now (fuel + 1) gp c1 with
          | none => none
          | some (some err, gp1, c2) => some (.error err, gp1, c2)
          | some (none, gp1, c2) => _choosePod k newLabels startTime fuel gp1 c2
        | pod :: pods =>
          let chosenPod := (pod :: pods).getD (k.rand c1.calls % (pod :: pods).length) pod
          if gp.env.spec.allowedFunctionsPerContainer ≠ AllowedFunctionsPerContainerInfinite then
            let relabeled := relabel chosenPod newLabels
            match k.updatePod c1.calls relabeled with
            | some _ => _choosePod k newLabels startTime fuel gp (c1.tick k)
            | none => some (.ok relabeled, gp, c1.tick k)
          else some (.ok chosenPod, gp, c1)

/-- Method `GenericPool.choosePod`: the request is served by `choosePodService`, which
calls `_choosePod` once per request, one request at a time. -/
def choosePod (k : Kube) (newLabels : Labels) (fuel : Nat) (gp : GenericPool) (c : Clock) :
    Option (Except GoError Pod × GenericPool × Clock) :=
  _choosePod k newLabels c.now fuel gp c

/-- Method `GenericPool.labelsForFunction` (lines 268-275). -/
def labelsForFunction (gp : GenericPool) (metadata : ObjectMeta) : Labels :=
  [ ("functionName", metadata.name),
    ("functionUid", metadata.uid),
    ("unmanaged", "true"),
    (EXECUTOR_INSTANCEID_LABEL, gp.instanceId) ]

/-! ## `gp.go`: `GetFuncSvc` -/

/-- Type `api.ObjectReference`. -/
structure ObjectReference where
  kind : String
  name : String
  apiVersion : String
  ns : String
  resourceVersion : String
  uid : String
  deriving DecidableEq, Repr

/-- Type `fscache.FuncSvc`. -/
structure FuncSvc where
  name : String
  function : ObjectMeta
  environment : Environment
  address : String
  kubernetesObjects : List ObjectReference
  executor : String
  ctime : Nat
  atime : Nat
  deriving DecidableEq, Repr

/-- What a call of `GetFuncSvc` returned and did. -/
structure FuncSvcOutcome where
  /-- the returned `(*FuncSvc, error)` -/
  result : Except GoError FuncSvc
  /-- the actions of `specializePod` -/
  events : List Event
  /-- the names passed to `scheduleDeletePod` -/
  scheduledDelete : List String
  /-- the pool afterwards -/
  gp : GenericPool
  /-- the clock afterwards -/
  clock : Clock

/-- Sum of the sleeps among the events. -/
def totalSleep : List Event → Nat
  | [] => 0
  | .sleep d :: es => d + totalSleep es
  | _ :: es => totalSleep es

/-- The tail of `GetFuncSvc` (lines 657-683): build the `FuncSvc` for the chosen pod
and the address, and register it with `fsCache.Add`. -/
def registerFuncSvc (cacheAdd : FuncSvc → Option GoError) (gp1 : GenericPool) (pod : Pod)
    (m : ObjectMeta) (events : List Event) (svcHost : String) (c3 : Clock) : FuncSvcOutcome :=
  let kubeObjRefs : List ObjectReference :=
    [ { kind := "pod", name := pod.objectMeta.name, apiVersion := pod.apiVersion,
        ns := pod.objectMeta.ns, resourceVersion := pod.objectMeta.resourceVersion,
        uid := pod.objectMeta.uid } ]
  let fsvc : FuncSvc :=
    { name := pod.objectMeta.name, function := m, environment := gp1.env,
      address := svcHost, kubernetesObjects := kubeObjRefs, executor := "poolmgr",
      ctime := c3.now, atime := c3.now }
  match cacheAdd fsvc with
  | some err =>
    { result := .error err, events := events, scheduledDelete := [], gp := gp1, clock := c3 }
  | none =>
    { result := .ok fsvc, events := events, scheduledDelete := [], gp := gp1, clock := c3 }

/-- The service name computed by `GetFuncSvc` (lines 633-636). -/
def svcNameFor (m : ObjectMeta) : String :=
  if m.uid.length > 0 then "svc-" ++ m.name ++ "-" ++ m.uid else "svc-" ++ m.name

/-- Method `GenericPool.GetFuncSvc` (lines 615-684).  The argument `cacheAdd` is the
error returned by `fsCache.Add`.  The result is `none` when `_choosePod` runs
out of fuel. -/
def GetFuncSvc (k : Kube) (w : SpecializeWorld) (cacheAdd : FuncSvc → Option GoError)
    (fuel : Nat) (gp : GenericPool) (c : Clock) (m : ObjectMeta) : Option FuncSvcOutcome :=
  let newLabels := labelsForFunction gp m
  match choosePod k newLabels fuel gp c with
  | none => none
  | some (.error err, gp1, c1) =>
    some { result := .error err, events := [], scheduledDelete := [], gp := gp1, clock := c1 }
  | some (.ok pod, gp1, c1) =>
    let sp := specializePod gp1 w pod m
    let c2 := c1.sleep (totalSleep sp.2)
    match sp.1 with
    | some err =>
      some { result := .error err, events := sp.2, scheduledDelete := [pod.objectMeta.name],
             gp := gp1, clock := c2 }
    | none =>
      if gp1.useSvc then
        let svcName := svcNameFor m
        let labels := labelsForFunction gp1 m
        match k.createSvc c2.calls svcName labels with
        | .error err =>
          some { result := .error err, events := sp.2, scheduledDelete := [pod.objectMeta.name],
                 gp := gp1, clock := c2.tick k }
        | .ok createdName =>
          if createdName ≠ svcName then
            some { result := .error (.text ("sanity check failed for svc " ++ createdName)),
                   events := sp.2, scheduledDelete := [pod.objectMeta.name],
                   gp := gp1, clock := c2.tick k }
          else
            some (registerFuncSvc cacheAdd gp1 pod m sp.2 (svcName ++ "." ++ gp1.ns) (c2.tick k))
      else
        some (registerFuncSvc cacheAdd gp1 pod m sp.2 (pod.status.podIP ++ ":8888") c2)

/-! ## `gpm.go`: the pool manager -/

/-- Go `map[string]*GenericPool`: a finite map with distinct keys. -/
abbrev Pools := AList (fun _ : String => GenericPool)

/-- What the manager obtains from outside while constructing pools; the numeric
argument is the index of the construction. -/
structure ManagerWorld where
  /-- Function `crd.CacheKey`, declared outside the given sources -/
  cacheKey : ObjectMeta → String
  /-- Result of `uniuri.NewLen(8)` -/
  uniuri : Nat → String
  /-- Error returned by `util.GetFetcherResources()` -/
  getFetcherResources : Nat → Option GoError
  /-- Result of `ExtensionsV1beta1().Deployments(ns).Create(deployment)` -/
  createDeployment : Nat → Deployment → Except GoError Deployment

/-- Type `GenericPoolManager`: the `pools` map and the fields copied into each pool;
`made` counts the `MakeGenericPool` calls so far and indexes the oracles. -/
structure GenericPoolManager where
  pools : Pools := ∅
  ns : String := ""
  instanceId : String := ""
  made : Nat := 0

/-- Method `GenericPool.createPool` (lines 433-570). -/
def createPool (mw : ManagerWorld) (n : Nat) (gp : GenericPool) : Except GoError GenericPool :=
  let poolDeploymentName :=
    gp.env.metadata.name ++ "-" ++ gp.env.metadata.uid ++ "-" ++ gp.poolInstanceId.toLower
  match mw.getFetcherResources n with
  | some err => .error err
  | none =>
    let deployment : Deployment :=
      { name := poolDeploymentName, labels := gp.labelsForPool, replicas := gp.replicas,
        matchLabels := gp.labelsForPool, templateLabels := gp.labelsForPool }
    match mw.createDeployment n deployment with
    | .error err => .error err
    | .ok depl => .ok { gp with deployment := depl }

/-- Function `MakeGenericPool` (lines 99-167). -/
def MakeGenericPool (mw : ManagerWorld) (n : Nat) (env : Environment) (initialReplicas : Int)
    (ns : String) (instanceId : String) : Except GoError GenericPool :=
  let gp : GenericPool :=
    { env := env, replicas := initialReplicas, ns := ns,
      podReadyTimeout := 5 * 60 * 1000000000, poolInstanceId := mw.uniuri n,
      instanceId := instanceId, useSvc := false, sharedMountPath := "/userfunc",
      sharedSecretPath := "/secrets", sharedCfgMapPath := "/configs" }
  let gp : GenericPool :=
    { gp with labelsForPool :=
        [ ("environmentName", gp.env.metadata.name),
          ("environmentUid", gp.env.metadata.uid),
          (EXECUTOR_INSTANCEID_LABEL, gp.instanceId),
          ("executorType", ExecutorTypePoolmgr) ] }
  createPool mw n gp

/-- What the `GET_POOL` case of `service` answered and did. -/
structure GetPoolResponse where
  /-- the `response` sent back: the pool or the error -/
  result : Except GoError GenericPool
  /-- the manager afterwards -/
  gpm : GenericPoolManager
  /-- the `(env, poolsize)` arguments of every `MakeGenericPool` call made -/
  constructed : List (Environment × Int)

/-- The `GET_POOL` case of `GenericPoolManager.service` (lines 88-107). -/
def getPool (mw : ManagerWorld) (gpm : GenericPoolManager) (env : Environment) :
    GetPoolResponse :=
  match gpm.pools.lookup (mw.cacheKey env.metadata) with
  | some pool => { result := .ok pool, gpm := gpm, constructed := [] }
  | none =>
    let poolsize := getEnvPoolsize env
    let poolsize :=
      if env.spec.allowedFunctionsPerContainer = AllowedFunctionsPerContainerInfinite then 1
      else poolsize
    match MakeGenericPool mw gpm.made env poolsize gpm.ns gpm.instanceId with
    | .error err =>
      { result := .error err, gpm := { gpm with made := gpm.made + 1 },
        constructed := [(env, poolsize)] }
    | .ok pool =>
      { result := .ok pool,
        gpm := { gpm with pools := gpm.pools.insert (mw.cacheKey env.metadata) pool,
                          made := gpm.made + 1 },
        constructed := [(env, poolsize)] }

/-- The map `latestEnvSet` after the first loop of the `CLEANUP_POOLS` case
(lines 109-114). -/
def latestEnvSet (mw : ManagerWorld) (envList : List Environment) :
    AList (fun _ : String => Bool) :=
  envList.foldl (fun set env => set.insert (mw.cacheKey env.metadata) true) ∅

/-- The map `latestEnvPoolsize` after the first loop of the `CLEANUP_POOLS` case
(lines 109-114). -/
def latestEnvPoolsize (mw : ManagerWorld) (envList : List Environment) :
    AList (fun _ : String => Int) :=
  envList.foldl (fun sizes env => sizes.insert (mw.cacheKey env.metadata) (getEnvPoolsize env)) ∅

/-- The loop `for key, pool := range gpm.pools` of the `CLEANUP_POOLS` case
(lines 115-127) over the entries still to visit: the map after the deletions and
the `(key, pool)` pairs on which `go pool.destroy()` was started. -/
def cleanupLoop (set : AList (fun _ : String => Bool)) (sizes : AList (fun _ : String => Int)) :
    List (Sigma (fun _ : String => GenericPool)) → Pools → List (String × GenericPool) →
    Pools × List (String × GenericPool)
  | [], pools, destroyed => (pools, destroyed)
  | ⟨key, pool⟩ :: rest, pools, destroyed =>
    let ok := (set.lookup key).isSome
    let poolsize := (sizes.lookup key).getD 0
    if !ok || poolsize == 0 then
      cleanupLoop set sizes rest (pools.erase key) (destroyed ++ [(key, pool)])
    else cleanupLoop set sizes rest pools destroyed

/-- The `CLEANUP_POOLS` case of `GenericPoolManager.service` (lines 108-129): the
manager afterwards and the pools handed to `destroy`. -/
def cleanupPools (mw : ManagerWorld) (gpm : GenericPoolManager) (envList : List Environment) :
    GenericPoolManager × List (String × GenericPool) :=
  let r := cleanupLoop (latestEnvSet mw envList) (latestEnvPoolsize mw envList)
    gpm.pools.entries gpm.pools []
  ({ gpm with pools := r.1 }, r.2)

/-- Type `request` of the manager's channel. -/
inductive Request where
  | GET_POOL (env : Environment)
  | CLEANUP_POOLS (envList : List Environment)

/-- One iteration of the `for` loop of `service`: the manager after the request. -/
def serviceStep (mw : ManagerWorld) (gpm : GenericPoolManager) : Request → GenericPoolManager
  | .GET_POOL env => (getPool mw gpm env).gpm
  | .CLEANUP_POOLS envList => (cleanupPools mw gpm envList).1

/-- The loop of `service` over the requests received, in order. -/
def service (mw : ManagerWorld) (gpm : GenericPoolManager) (reqs : List Request) :
    GenericPoolManager :=
  reqs.foldl (serviceStep mw) gpm

/-! ## `gp.go`: destroying a pool -/

/-- The orchestrator as seen by `destroy`; the numeric argument is the index of the
call within the run.  A listing yields the names of `result.Items` together with
the error: the typed client allocates the result list before the request, so it
is present (possibly empty) also when the error is not nil. -/
structure DestroyWorld where
  /-- Error of `Deployments(ns).Delete(name, nil)` -/
  deleteDeployment : Nat → String → Option GoError
  /-- Items and error of `ReplicaSets(ns).List` for the pool labels -/
  listReplicaSets : Nat → Labels → List String × Option GoError
  /-- Error of `ReplicaSets(ns).Delete(name, nil)` -/
  deleteReplicaSet : Nat → String → Option GoError
  /-- Items and error of `Pods(ns).List` for the pool labels -/
  listPods : Nat → Labels → List String × Option GoError
  /-- Error of `Pods(ns).Delete(name, nil)` -/
  deletePod : Nat → String → Option GoError

/-- An orchestrator call attempted by `destroy`. -/
inductive DestroyCall where
  | deleteDeployment (name : String)
  | listReplicaSets (selector : Labels)
  | deleteReplicaSet (name : String)
  | listPods (selector : Labels)
  | deletePod (name : String)
  deriving DecidableEq, Repr

/-- What a run of `destroy` returned and did. -/
structure DestroyOutcome where
  /-- the returned error (`none` is nil) -/
  err : Option GoError
  /-- the orchestrator calls attempted, in order -/
  calls : List DestroyCall
  /-- the errors that were only logged -/
  logged : List GoError
  deriving DecidableEq, Repr

/-- The loops `for _, x := range list.Items` of `destroy` (lines 702-707 and
715-720): delete every item, log a failure and go on.  The first argument is the
index of the next call; the result is the calls made and the errors logged. -/
def deleteEach (delete : Nat → String → Option GoError) (call : String → DestroyCall) :
    Nat → List String → List DestroyCall × List GoError
  | _, [] => ([], [])
  | n, name :: names =>
    let rest := deleteEach delete call (n + 1) names
    match delete n name with
    | some err => (call name :: rest.1, err :: rest.2)
    | none => (call name :: rest.1, rest.2)

/-- Method `GenericPool.destroy` (lines 687-724).  The tests `len(list.Items) >= 0`
always hold. -/
def destroy (dw : DestroyWorld) (gp : GenericPool) : DestroyOutcome :=
  match dw.deleteDeployment 0 gp.deployment.name with
  | some err =>
    { err := some err, calls := [.deleteDeployment gp.deployment.name], logged := [err] }
  | none =>
    let rsList := dw.listReplicaSets 1 gp.labelsForPool
    let rs := deleteEach dw.deleteReplicaSet .deleteReplicaSet 2 rsList.1
    let podList := dw.listPods (2 + rsList.1.length) gp.labelsForPool
    let pods := deleteEach dw.deletePod .deletePod (3 + rsList.1.length) podList.1
    { err := none
      calls := [.deleteDeployment gp.deployment.name, .listReplicaSets gp.labelsForPool] ++
        rs.1 ++ [.listPods gp.labelsForPool] ++ pods.1
      logged := rs.2 ++ pods.2 }

/-! ## Vocabulary of the statements -/

/-- Number of `http.Post` calls among the events. -/
def countPosts : List Event → Nat
  | [] => 0
  | .post _ :: es => countPosts es + 1
  | _ :: es => countPosts es

/-- The actions of `n` consecutive attempts, the first with index `i`, each
answered by a dial error and followed by its sleep. -/
def dialRetries (req : HttpPost) : Nat → Nat → List Event
  | 0, _ => []
  | n + 1, i => .post req :: .sleep (retrySleep i) :: dialRetries req n (i + 1)

/-- The call `specializePod gp w pod m` gets as far as its retry loop: the pod has
an IP, the controller returns the function `fn`, the fetch succeeds and the load
request encodes to `body`. -/
def ReachesLoad (gp : GenericPool) (w : SpecializeWorld) (pod : Pod) (m : ObjectMeta)
    (fn : Function) (body : String) : Prop :=
  pod.status.podIP.length ≠ 0 ∧
  w.getFunction m.ns m.name = .ok fn ∧
  w.fetch (getFetcherUrl w pod.status.podIP).1 (fetchRequest gp fn) = none ∧
  w.marshal (loadRequest gp w fn) = .ok body

/-- The actions of `specializePod` before its retry loop, when the loop is reached. -/
def fetchPhase (gp : GenericPool) (w : SpecializeWorld) (pod : Pod) (fn : Function) :
    List Event :=
  (getFetcherUrl w pod.status.podIP).2 ++
    [.fetch (getFetcherUrl w pod.status.podIP).1 (fetchRequest gp fn)]

/-- The target size of an environment key in an environment list: the
`envPoolsize` of the environment listed under that key (the last one, should the
list name the key twice), and 0 when the key is not listed. -/
def targetSize (mw : ManagerWorld) (envList : List Environment) (key : String) : Int :=
  ((envList.reverse.find? (fun env => decide (mw.cacheKey env.metadata = key))).map
    getEnvPoolsize).getD 0

/-- The key appears in the environment list with a non-zero target size. -/
def Wanted (mw : ManagerWorld) (envList : List Environment) (key : String) : Prop :=
  (∃ env ∈ envList, mw.cacheKey env.metadata = key) ∧ targetSize mw envList key ≠ 0

/-- The removal test of the cleanup loop (line 118) for a key. -/
def removes (set : AList (fun _ : String => Bool)) (sizes : AList (fun _ : String => Int))
    (key : String) : Bool :=
  !(set.lookup key).isSome || (sizes.lookup key).getD 0 == 0

/-- The readiness predicate of the spec: the pod's phase is `Running`, it has an
IP, and every one of its container statuses is ready. -/
def ReadyPod (pod : Pod) : Prop :=
  pod.status.phase = POD_PHASE_RUNNING ∧ pod.status.podIP ≠ "" ∧
    ∀ cs ∈ pod.status.containerStatuses, cs.ready = true

instance : DecidablePred ReadyPod := fun pod => by
  unfold ReadyPod
  infer_instance


/-- Orchestrator contract for a listing by `labels.Set(sel).AsSelector()`: a label
set is selected when it carries every key of `sel` with the same value. -/
def selectorMatches (sel labels : Labels) : Bool :=
  sel.all (fun kv => labels.lookup kv.1 == some kv.2)

/-- The pool carries the labels that `MakeGenericPool` gives it (lines 150-155). -/
def PoolLabelled (gp : GenericPool) : Prop :=
  gp.labelsForPool =
    [ ("environmentName", gp.env.metadata.name),
      ("environmentUid", gp.env.metadata.uid),
      (EXECUTOR_INSTANCEID_LABEL, gp.instanceId),
      ("executorType", ExecutorTypePoolmgr) ]

/-- The pod objects held by the orchestrator. -/
abbrev PodStore := List Pod

/-- Orchestrator contract for `Pods(ns).List` with a label selector: the stored
pods whose labels the selector selects. -/
def listSelected (store : PodStore) (sel : Labels) : List Pod :=
  store.filter (fun p => selectorMatches sel p.objectMeta.labels)

/-- Orchestrator contract for an accepted `Pods(ns).Update(pod)`: the stored object
of that name is replaced by the object sent. -/
def applyUpdate (store : PodStore) (pod : Pod) : PodStore :=
  store.map (fun p => if p.objectMeta.name = pod.objectMeta.name then pod else p)

/-- The oracle `k` answers from the orchestrator's pod stores, `stores n` being the
store that call `n` finds: a successful listing returns the selected pods of the
store, and an accepted update is applied to the store that the next call finds.
How the store changes across the other calls is left open. -/
def ServedBy (k : Kube) (stores : Nat → PodStore) : Prop :=
  (∀ n sel items, k.listPods n sel = .ok items → items = listSelected (stores n) sel) ∧
  (∀ n pod, k.updatePod n pod = none → stores (n + 1) = applyUpdate (stores n) pod)

/-- From the store found by call `a` to the store found by call `b`, nothing
creates or changes a pod object of this name: every object of the name in a
later store was already in the store before it. -/
def Untouched (stores : Nat → PodStore) (name : String) (a b : Nat) : Prop :=
  ∀ j, a ≤ j → j < b → ∀ p ∈ stores (j + 1), p.objectMeta.name = name → p ∈ stores j

/-! ## Concrete inputs -/

/-- A function `f` with uid `U`. -/
def sampleFunction : Function :=
  { metadata := { name := "f", ns := "default", uid := "U" }
    spec := { packageRef := { ns := "default", name := "pkg" }, functionName := "main" } }

/-- An environment `py` of the given interface version and container-sharing mode. -/
def sampleEnv (version : Int) (allowed : String) : Environment :=
  { metadata := { name := "py", ns := "default", uid := "E" }
    spec := { version := version, allowedFunctionsPerContainer := allowed, poolsize := 3 } }

/-- The pool labels of the sample pool. -/
def samplePoolLabels : Labels :=
  [ ("environmentName", "py"), ("environmentUid", "E"),
    (EXECUTOR_INSTANCEID_LABEL, "inst"), ("executorType", ExecutorTypePoolmgr) ]

/-- A pool for `sampleEnv`. -/
def samplePool (version : Int) (allowed : String) : GenericPool :=
  { env := sampleEnv version allowed, replicas := 3, ns := "fission-function",
    instanceId := "inst", labelsForPool := samplePoolLabels,
    deployment := { name := "py-e-abcdefgh", labels := samplePoolLabels, replicas := 3,
                    matchLabels := samplePoolLabels, templateLabels := samplePoolLabels } }

/-- A ready generic pod of the sample pool. -/
def samplePod : Pod :=
  { objectMeta := { name := "pod-1", ns := "fission-function", labels := samplePoolLabels }
    status := { podIP := "10.0.0.1", phase := "Running",
                containerStatuses := [⟨true⟩, ⟨true⟩] } }

/-- A world in which the controller knows `sampleFunction`, the fetcher succeeds
and load attempt `i` is answered by `post i`. -/
def sampleWorld (post : Nat → PostResult) : SpecializeWorld :=
  { parseIP := fun _ => true
    getFunction := fun _ _ => .ok sampleFunction
    fetch := fun _ _ => none
    join := fun dir file => dir ++ "/" ++ file
    marshal := fun req => .ok ("filePath=" ++ req.filePath)
    post := fun i _ => post i }

/-- An orchestrator whose listing always holds `samplePod` alone, whose updates
succeed and whose calls take one nanosecond. -/
def sampleKube : Kube :=
  { listPods := fun _ _ => .ok [samplePod]
    updatePod := fun _ _ => none
    getDeployment := fun _ _ => .error (.external "not available")
    createSvc := fun _ name _ => .ok name
    rand := fun _ => 0
    latency := fun _ => 1 }

/-- The dial error of a refused connection. -/
def dialError : GoError := .urlError (.opError "dial")

/-- A manager world: keys are `namespace/name/uid`, every construction succeeds
and the orchestrator returns the Deployment it was given. -/
def sampleManagerWorld : ManagerWorld :=
  { cacheKey := fun m => m.ns ++ "/" ++ m.name ++ "/" ++ m.uid
    uniuri := fun _ => "ABCDEFGH"
    getFetcherResources := fun _ => none
    createDeployment := fun _ depl => .ok depl }

/-- A second environment, `node`, of version 1. -/
def otherEnv : Environment :=
  { metadata := { name := "node", ns := "default", uid := "N" }
    spec := { version := 1 } }

/-- Requests served between two `GetPool` calls: a `GetPool` for another
environment and a cleanup that lists both environments. -/
def sampleRequests : List Request :=
  [ .GET_POOL otherEnv, .CLEANUP_POOLS [otherEnv, sampleEnv 2 "single"] ]

/-- A pod of the sample pool that is still pending. -/
def pendingPod : Pod :=
  { objectMeta := { name := "pod-2", ns := "fission-function", labels := samplePoolLabels }
    status := { podIP := "", phase := "Pending", containerStatuses := [⟨false⟩, ⟨false⟩] } }

/-- An orchestrator whose calls all succeed and take no time, whose listing always
holds `pendingPod` alone and whose Deployment never has an available replica. -/
def neverReadyKube : Kube :=
  { listPods := fun _ _ => .ok [pendingPod]
    updatePod := fun _ _ => none
    getDeployment := fun _ name =>
      .ok { name := name, labels := samplePoolLabels, replicas := 3,
            matchLabels := samplePoolLabels, templateLabels := samplePoolLabels,
            availableReplicas := 0 }
    createSvc := fun _ name _ => .ok name
    rand := fun _ => 0
    latency := fun _ => 0 }

/-- An orchestrator for `destroy`: the Deployment deletion fails exactly when
`failDeployment` is set; the ReplicaSet listing fails with no items; the pod
listing holds two pods, and every pod deletion fails. -/
def sampleDestroyWorld (failDeployment : Bool) : DestroyWorld :=
  { deleteDeployment := fun _ _ =>
      if failDeployment then some (.external "deployment not deleted") else none
    listReplicaSets := fun _ _ => ([], some (.external "replicasets not listed"))
    deleteReplicaSet := fun _ _ => none
    listPods := fun _ _ => (["pod-1", "pod-2"], none)
    deletePod := fun _ _ => some (.external "pod not deleted") }

/-- A second ready generic pod of the sample pool. -/
def secondPod : Pod :=
  { objectMeta := { name := "pod-3", ns := "fission-function", labels := samplePoolLabels }
    status := { podIP := "10.0.0.3", phase := "Running",
                containerStatuses := [⟨true⟩, ⟨true⟩] } }

/-- The pod `samplePod` carrying the labels of `sampleFunction`. -/
def relabeledSamplePod : Pod :=
  relabel samplePod (labelsForFunction (samplePool 2 "single") sampleFunction.metadata)

/-- Pod stores of an orchestrator holding `samplePod` and `secondPod`, in which the
update made by call 1 replaces `samplePod` by `relabeledSamplePod`. -/
def sampleStores (n : Nat) : PodStore :=
  if n ≤ 1 then [samplePod, secondPod] else [relabeledSamplePod, secondPod]

/-- An orchestrator that answers from `sampleStores`: every listing is the
selection from the current store, and the only update it accepts is the
relabel of `samplePod` at call 1. -/
def storeKube : Kube :=
  { listPods := fun n sel => .ok (listSelected (sampleStores n) sel)
    updatePod := fun n pod =>
      if n = 1 ∧ pod = relabeledSamplePod then none else some (.external "conflict")
    getDeployment := fun _ _ => .error (.external "not available")
    createSvc := fun _ name _ => .ok name
    rand := fun _ => 0
    latency := fun _ => 1 }

/-! ## Specialization: requests -/

/-- The fetch request names the function's uid exactly for version 2. -/
theorem fetchRequest_filename_version2 (gp : GenericPool) (fn : Function)
    (h : gp.env.spec.version = 2) : (fetchRequest gp fn).filename = fn.metadata.uid := by
  simp [fetchRequest, targetFilename, h]

/-- For every version other than 2 the fetch request names the file `user`. -/
theorem fetchRequest_filename_other (gp : GenericPool) (fn : Function)
    (h : gp.env.spec.version ≠ 2) : (fetchRequest gp fn).filename = "user" := by
  simp [fetchRequest, targetFilename, h]

/-- For version 2 the load attempt posts the JSON body to the URL of version 2. -/
theorem loadAttempt_version2 (gp : GenericPool) (w : SpecializeWorld) (podIP body : String)
    (h : gp.env.spec.version = 2) :
    loadAttempt gp w podIP body =
      { url := getSpecializeUrl w podIP 2, contentType := "application/json", body := body } := by
  simp [loadAttempt, h]

/-- For every version other than 2 the load attempt posts an empty `text/plain`
body to the URL of version 1. -/
theorem loadAttempt_other (gp : GenericPool) (w : SpecializeWorld) (podIP body : String)
    (h : gp.env.spec.version ≠ 2) :
    loadAttempt gp w podIP body =
      { url := getSpecializeUrl w podIP 1, contentType := "text/plain", body := "" } := by
  simp [loadAttempt, h]

/-- C1 (the code at the failing input): for an environment of version 3 and a
function with uid `U`, `specializePod` succeeds and the only fetch request it
sends names the file `user`, not the function's uid. -/
theorem specializePod_version3_fetch_filename :
    (samplePool 3 "single").env.spec.version = 3 ∧
    sampleFunction.metadata.uid = "U" ∧
    (specializePod (samplePool 3 "single") (sampleWorld fun _ => .response 200) samplePod
      sampleFunction.metadata).1 = none ∧
    (specializePod (samplePool 3 "single") (sampleWorld fun _ => .response 200) samplePod
      sampleFunction.metadata).2.filterMap
        (fun e => match e with
          | .fetch url req => some (url, req.filename)
          | _ => none)
      = [("http://10.0.0.1:8000/", "user")] := by
  decide

/-- C2 (the code at the failing input): for an environment of version 3 the load
attempt of `specializePod` is a `text/plain` POST with an empty body to the
unversioned path `/specialize`, although the JSON body was encoded. -/
theorem specializePod_version3_load_request :
    (samplePool 3 "single").env.spec.version = 3 ∧
    (specializePod (samplePool 3 "single") (sampleWorld fun _ => .response 200) samplePod
      sampleFunction.metadata).2.filterMap
        (fun e => match e with
          | .post req => some req
          | _ => none)
      = [{ url := "http://10.0.0.1:8888/specialize", contentType := "text/plain", body := "" }] := by
  decide

/-! ## Specialization: the retry loop -/

theorem countPosts_append (xs ys : List Event) :
    countPosts (xs ++ ys) = countPosts xs + countPosts ys := by
  induction xs with
  | nil => simp [countPosts]
  | cons e es ih =>
    cases e <;> simp [countPosts, ih]
    all_goals omega

theorem countPosts_dialRetries (req : HttpPost) (n i : Nat) :
    countPosts (dialRetries req n i) = n := by
  induction n generalizing i with
  | zero => rfl
  | succ n ih => simp [dialRetries, countPosts, ih]

theorem totalSleep_append (xs ys : List Event) :
    totalSleep (xs ++ ys) = totalSleep xs + totalSleep ys := by
  induction xs with
  | nil => simp [totalSleep]
  | cons e es ih =>
    cases e <;> simp [totalSleep, ih]
    all_goals omega

theorem countPosts_fetchPhase (gp : GenericPool) (w : SpecializeWorld) (pod : Pod)
    (fn : Function) : countPosts (fetchPhase gp w pod fn) = 0 := by
  have h : countPosts (getFetcherUrl w pod.status.podIP).2 = 0 := by
    unfold getFetcherUrl
    by_cases ht : w.testFetcherUrl.length ≠ 0
    · simp [ht, countPosts]
    · by_cases hv : IsIPv6 w.parseIP pod.status.podIP = false <;> simp [ht, hv, countPosts]
  unfold fetchPhase
  rw [countPosts_append, h]
  rfl

/-- When the loop is reached, `specializePod` is the fetch phase followed by the
retry loop with `maxRetries = 20`. -/
theorem specializePod_of_reachesLoad (gp : GenericPool) (w : SpecializeWorld) (pod : Pod)
    (m : ObjectMeta) (fn : Function) (body : String) (h : ReachesLoad gp w pod m fn body) :
    specializePod gp w pod m =
      ((specializeLoop gp w pod.status.podIP body 20 20 0).1.toError,
        fetchPhase gp w pod fn ++ (specializeLoop gp w pod.status.podIP body 20 20 0).2) := by
  obtain ⟨hip, hfn, hfetch, hbody⟩ := h
  simp only [specializePod, fetchPhase, hip, hfn, hfetch, hbody, if_false]

/-- A run of `n` dial errors, none of them on the last permitted attempt, is
retried: the loop continues with attempt `i + n`. -/
theorem specializeLoop_dial_prefix (gp : GenericPool) (w : SpecializeWorld)
    (podIP body : String) (maxRetries : Nat) :
    ∀ (n remaining i : Nat),
      (∀ j, i ≤ j → j < i + n →
        ∃ err, w.post j (loadAttempt gp w podIP body) = .failed err ∧ isDialError err = true) →
      i + n < maxRetries → n ≤ remaining →
      specializeLoop gp w podIP body maxRetries remaining i =
        ((specializeLoop gp w podIP body maxRetries (remaining - n) (i + n)).1,
          dialRetries (loadAttempt gp w podIP body) n i ++
            (specializeLoop gp w podIP body maxRetries (remaining - n) (i + n)).2) := by
  intro n
  induction n with
  | zero => intro remaining i _ _ _; simp [dialRetries]
  | succ n ih =>
    intro remaining i hdial hlt hle
    obtain ⟨r, rfl⟩ : ∃ r, remaining = r + 1 := ⟨remaining - 1, by omega⟩
    obtain ⟨err, hpost, herr⟩ := hdial i (le_refl i) (by omega)
    have hi : i < maxRetries - 1 := by omega
    have hrest := ih r (i + 1) (fun j h1 h2 => hdial j (by omega) (by omega)) (by omega) (by omega)
    have e1 : r + 1 - (n + 1) = r - n := by omega
    have e2 : i + (n + 1) = i + 1 + n := by omega
    rw [e1, e2]
    conv_lhs => rw [specializeLoop]
    simp only [hpost, herr, hi, decide_True, Bool.and_self, if_true]
    rw [hrest]
    simp [dialRetries]

/-- The loop entered with at least one attempt left never falls out of its
condition: the trailing `return nil` is unreachable. -/
theorem specializeLoop_ne_exhausted (gp : GenericPool) (w : SpecializeWorld)
    (podIP body : String) (maxRetries : Nat) :
    ∀ (remaining i : Nat), 0 < remaining → i + remaining = maxRetries →
      (specializeLoop gp w podIP body maxRetries remaining i).1 ≠ .exhausted := by
  intro remaining
  induction remaining with
  | zero => intro i h; omega
  | succ r ih =>
    intro i _ hsum
    rw [specializeLoop]
    cases hpost : w.post i (loadAttempt gp w podIP body) with
    | response statusCode =>
      by_cases hs : statusCode < 300 <;> simp [hs]
    | failed err =>
      by_cases hc : (isDialError err && decide (i < maxRetries - 1)) = true
      · simp only [hc, if_true]
        have hi : i < maxRetries - 1 := by
          simp only [Bool.and_eq_true, decide_eq_true_eq] at hc
          exact hc.2
        exact ih (i + 1) (by omega) (by omega)
      · simp [hc]

/-- The loop leaves through its success exit only after an attempt that was
answered by a response with status below 300. -/
theorem specializeLoop_success (gp : GenericPool) (w : SpecializeWorld)
    (podIP body : String) (maxRetries : Nat) :
    ∀ (remaining i : Nat),
      (specializeLoop gp w podIP body maxRetries remaining i).1 = .success →
      ∃ j statusCode, i ≤ j ∧ j < i + remaining ∧
        w.post j (loadAttempt gp w podIP body) = .response statusCode ∧ statusCode < 300 ∧
        Event.post (loadAttempt gp w podIP body) ∈
          (specializeLoop gp w podIP body maxRetries remaining i).2 := by
  intro remaining
  induction remaining with
  | zero => intro i h; simp [specializeLoop] at h
  | succ r ih =>
    intro i h
    rw [specializeLoop] at h ⊢
    cases hpost : w.post i (loadAttempt gp w podIP body) with
    | response statusCode =>
      rw [hpost] at h
      by_cases hs : statusCode < 300
      · exact ⟨i, statusCode, le_refl i, by omega, hpost, hs, by simp [hs]⟩
      · simp [hs] at h
    | failed err =>
      rw [hpost] at h
      by_cases hc : (isDialError err && decide (i < maxRetries - 1)) = true
      · simp only [hc, if_true] at h ⊢
        obtain ⟨j, statusCode, h1, h2, h3, h4, h5⟩ := ih (i + 1) h
        exact ⟨j, statusCode, by omega, by omega, h3, h4, by simp [h5]⟩
      · simp [hc] at h

/-- A nil error from `specializePod` means that the retry loop was reached and
left through its success exit. -/
theorem specializePod_nil (gp : GenericPool) (w : SpecializeWorld) (pod : Pod)
    (m : ObjectMeta) (h : (specializePod gp w pod m).1 = none) :
    ∃ fn body, ReachesLoad gp w pod m fn body ∧
      (specializeLoop gp w pod.status.podIP body 20 20 0).1 = .success := by
  unfold specializePod at h
  by_cases hip : pod.status.podIP.length = 0
  · simp [hip] at h
  · simp only [hip, if_false] at h
    cases hfn : w.getFunction m.ns m.name with
    | error err => simp [hfn] at h
    | ok fn =>
      simp only [hfn] at h
      cases hfetch : w.fetch (getFetcherUrl w pod.status.podIP).1 (fetchRequest gp fn) with
      | some err => simp [hfetch] at h
      | none =>
        simp only [hfetch] at h
        cases hbody : w.marshal (loadRequest gp w fn) with
        | error err => simp [hbody] at h
        | ok body =>
          simp only [hbody] at h
          refine ⟨fn, body, ⟨hip, hfn, hfetch, hbody⟩, ?_⟩
          have hne := specializeLoop_ne_exhausted gp w pod.status.podIP body 20 20 0
            (by decide) (by decide)
          cases hexit : (specializeLoop gp w pod.status.podIP body 20 20 0).1 with
          | success => rfl
          | failure err => rw [hexit] at h; simp [LoopExit.toError] at h
          | exhausted => exact absurd hexit hne

/-- C3: `GetFuncSvc` returns a `FuncSvc` only if `choosePod` returned a pod on which
`specializePod` returned nil, and then the retry loop was left through its
success exit after some attempt `i < 20` was actually posted and answered by a
response (no transport error) with status below 300.  The trailing `return nil`
after the loop is unreachable for every pool, world, address and body. -/
theorem GetFuncSvc_ok_only_after_load_success (k : Kube) (w : SpecializeWorld)
    (cacheAdd : FuncSvc → Option GoError) (fuel : Nat) (gp : GenericPool) (c : Clock)
    (m : ObjectMeta) (fsvc : FuncSvc)
    (h : (GetFuncSvc k w cacheAdd fuel gp c m).map (fun o => o.result) = some (.ok fsvc)) :
    (∃ pod gp1 c1 body,
      choosePod k (labelsForFunction gp m) fuel gp c = some (.ok pod, gp1, c1) ∧
      (specializePod gp1 w pod m).1 = none ∧
      (specializeLoop gp1 w pod.status.podIP body 20 20 0).1 = .success ∧
      ∃ i statusCode, i < 20 ∧
        w.post i (loadAttempt gp1 w pod.status.podIP body) = .response statusCode ∧
        statusCode < 300 ∧
        Event.post (loadAttempt gp1 w pod.status.podIP body) ∈ (specializePod gp1 w pod m).2) ∧
    (∀ (gp2 : GenericPool) (w2 : SpecializeWorld) (podIP body : String),
      (specializeLoop gp2 w2 podIP body 20 20 0).1 ≠ .exhausted) := by
  refine ⟨?_, fun gp2 w2 podIP body =>
    specializeLoop_ne_exhausted gp2 w2 podIP body 20 20 0 (by decide) (by decide)⟩
  unfold GetFuncSvc at h
  cases hch : choosePod k (labelsForFunction gp m) fuel gp c with
  | none => simp [hch] at h
  | some r =>
    obtain ⟨res, gp1, c1⟩ := r
    cases res with
    | error err => simp [hch] at h
    | ok pod =>
      simp only [hch] at h
      cases hsp : (specializePod gp1 w pod m).1 with
      | some err => simp [hsp] at h
      | none =>
        obtain ⟨fn, body, hload, hsucc⟩ := specializePod_nil gp1 w pod m hsp
        obtain ⟨i, statusCode, _, hi, hpost, hstatus, hmem⟩ :=
          specializeLoop_success gp1 w pod.status.podIP body 20 20 0 hsucc
        refine ⟨pod, gp1, c1, body, rfl, hsp, hsucc, i, statusCode, by omega, hpost, hstatus, ?_⟩
        rw [specializePod_of_reachesLoad gp1 w pod m fn body hload]
        exact List.mem_append_right _ hmem

/-- C3, at a concrete input: one ready pod, the runtime answers 200. -/
theorem GetFuncSvc_ok_only_after_load_success_witness :
    ∃ pod gp1 c1 body,
      choosePod sampleKube (labelsForFunction (samplePool 2 "single") sampleFunction.metadata) 1
        (samplePool 2 "single") {} = some (.ok pod, gp1, c1) ∧
      (specializePod gp1 (sampleWorld fun _ => .response 200) pod sampleFunction.metadata).1
        = none ∧
      (specializeLoop gp1 (sampleWorld fun _ => .response 200) pod.status.podIP body 20 20 0).1
        = .success ∧
      ∃ i statusCode, i < 20 ∧
        (sampleWorld fun _ => .response 200).post i
          (loadAttempt gp1 (sampleWorld fun _ => .response 200) pod.status.podIP body)
          = .response statusCode ∧
        statusCode < 300 ∧
        Event.post (loadAttempt gp1 (sampleWorld fun _ => .response 200) pod.status.podIP body)
          ∈ (specializePod gp1 (sampleWorld fun _ => .response 200) pod
              sampleFunction.metadata).2 :=
  (GetFuncSvc_ok_only_after_load_success sampleKube (sampleWorld fun _ => .response 200)
    (fun _ => none) 1 (samplePool 2 "single") {} sampleFunction.metadata
    { name := "pod-1", function := sampleFunction.metadata,
      environment := sampleEnv 2 "single", address := "10.0.0.1:8888",
      kubernetesObjects :=
        [ { kind := "pod", name := "pod-1", apiVersion := "", ns := "fission-function",
            resourceVersion := "", uid := "" } ],
      executor := "poolmgr", ctime := 2, atime := 2 }
    (by rfl)).1

/-- C4: when `specializePod` reaches its load phase and every attempt fails with a
dial error, it makes exactly 20 attempts (attempts 0 to 18 each followed by a
sleep, attempt 19 by nothing) and returns the non-nil error of attempt 19. -/
theorem specializePod_all_dial_errors (gp : GenericPool) (w : SpecializeWorld) (pod : Pod)
    (m : ObjectMeta) (fn : Function) (body : String)
    (hload : ReachesLoad gp w pod m fn body)
    (hdial : ∀ i, ∃ err, w.post i (loadAttempt gp w pod.status.podIP body) = .failed err ∧
      isDialError err = true) :
    countPosts (specializePod gp w pod m).2 = 20 ∧
    (specializePod gp w pod m).2 =
      fetchPhase gp w pod fn ++
        (dialRetries (loadAttempt gp w pod.status.podIP body) 19 0 ++
          [.post (loadAttempt gp w pod.status.podIP body)]) ∧
    (specializePod gp w pod m).1 ≠ none ∧
    ∃ err, w.post 19 (loadAttempt gp w pod.status.podIP body) = .failed err ∧
      (specializePod gp w pod m).1 = some err := by
  obtain ⟨err, hpost, _⟩ := hdial 19
  have hpre := specializeLoop_dial_prefix gp w pod.status.podIP body 20 19 20 0
    (fun j _ _ => hdial j) (by decide) (by decide)
  have hlast : specializeLoop gp w pod.status.podIP body 20 (20 - 19) (0 + 19) =
      (.failure err, [.post (loadAttempt gp w pod.status.podIP body)]) := by
    show specializeLoop gp w pod.status.podIP body 20 (0 + 1) 19 = _
    rw [specializeLoop]
    simp [hpost]
  rw [hlast] at hpre
  have hev : (specializePod gp w pod m).2 =
      fetchPhase gp w pod fn ++
        (dialRetries (loadAttempt gp w pod.status.podIP body) 19 0 ++
          [.post (loadAttempt gp w pod.status.podIP body)]) := by
    rw [specializePod_of_reachesLoad gp w pod m fn body hload, hpre]
  have herr : (specializePod gp w pod m).1 = some err := by
    rw [specializePod_of_reachesLoad gp w pod m fn body hload, hpre]
    rfl
  refine ⟨?_, hev, by rw [herr]; simp, err, hpost, herr⟩
  rw [hev, countPosts_append, countPosts_append, countPosts_dialRetries]
  rw [countPosts_fetchPhase]
  rfl

/-- C4, at a concrete input: the runtime refuses every connection. -/
theorem specializePod_all_dial_errors_witness :
    countPosts (specializePod (samplePool 2 "single") (sampleWorld fun _ => .failed dialError)
      samplePod sampleFunction.metadata).2 = 20 ∧
    (specializePod (samplePool 2 "single") (sampleWorld fun _ => .failed dialError)
      samplePod sampleFunction.metadata).1 ≠ none :=
  have h := specializePod_all_dial_errors (samplePool 2 "single")
    (sampleWorld fun _ => .failed dialError) samplePod sampleFunction.metadata sampleFunction
    "filePath=/userfunc/U" ⟨by decide, rfl, rfl, rfl⟩ (fun _ => ⟨dialError, rfl, rfl⟩)
  ⟨h.1, h.2.2.1⟩

/-- C5: in the load phase of `specializePod`, let attempt `i < 20` be reached (all
earlier attempts failed with dial errors).  If attempt `i` fails with an error
that is not a dial error, or is answered with status 300 or more, `specializePod`
returns that non-nil error; if it is answered with status below 300,
`specializePod` returns nil.  In all three cases the actions end with the post of
attempt `i`: no further attempt and no sleep follow. -/
theorem specializePod_stops_unless_dial (gp : GenericPool) (w : SpecializeWorld) (pod : Pod)
    (m : ObjectMeta) (fn : Function) (body : String) (i : Nat)
    (hload : ReachesLoad gp w pod m fn body) (hi : i < 20)
    (hprev : ∀ j, j < i →
      ∃ err, w.post j (loadAttempt gp w pod.status.podIP body) = .failed err ∧
        isDialError err = true) :
    (∀ err, w.post i (loadAttempt gp w pod.status.podIP body) = .failed err →
      isDialError err = false →
      specializePod gp w pod m =
        (some err, fetchPhase gp w pod fn ++
          (dialRetries (loadAttempt gp w pod.status.podIP body) i 0 ++
            [.post (loadAttempt gp w pod.status.podIP body)]))) ∧
    (∀ statusCode, w.post i (loadAttempt gp w pod.status.podIP body) = .response statusCode →
      300 ≤ statusCode →
      specializePod gp w pod m =
        (some (.fromHTTP statusCode), fetchPhase gp w pod fn ++
          (dialRetries (loadAttempt gp w pod.status.podIP body) i 0 ++
            [.post (loadAttempt gp w pod.status.podIP body)]))) ∧
    (∀ statusCode, w.post i (loadAttempt gp w pod.status.podIP body) = .response statusCode →
      statusCode < 300 →
      specializePod gp w pod m =
        (none, fetchPhase gp w pod fn ++
          (dialRetries (loadAttempt gp w pod.status.podIP body) i 0 ++
            [.post (loadAttempt gp w pod.status.podIP body)]))) := by
  have hpre := specializeLoop_dial_prefix gp w pod.status.podIP body 20 i 20 0
    (fun j _ hj => hprev j (by omega)) (by omega) (by omega)
  obtain ⟨r, hr⟩ : ∃ r, 20 - i = r + 1 := ⟨20 - i - 1, by omega⟩
  rw [hr, Nat.zero_add] at hpre
  rw [specializePod_of_reachesLoad gp w pod m fn body hload, hpre]
  refine ⟨?_, ?_, ?_⟩
  · intro err hpost hnd
    rw [specializeLoop]
    simp [hpost, hnd, LoopExit.toError]
  · intro statusCode hpost hs
    rw [specializeLoop]
    have : ¬ statusCode < 300 := by omega
    simp [hpost, this, LoopExit.toError]
  · intro statusCode hpost hs
    rw [specializeLoop]
    simp [hpost, hs, LoopExit.toError]

/-- C5, at a concrete input: two refused connections, then status 500. -/
theorem specializePod_stops_unless_dial_witness :
    specializePod (samplePool 2 "single")
      (sampleWorld fun i => if i < 2 then .failed dialError else .response 500)
      samplePod sampleFunction.metadata =
    (some (.fromHTTP 500),
      fetchPhase (samplePool 2 "single")
        (sampleWorld fun i => if i < 2 then .failed dialError else .response 500)
        samplePod sampleFunction ++
      (dialRetries (loadAttempt (samplePool 2 "single")
          (sampleWorld fun i => if i < 2 then .failed dialError else .response 500)
          samplePod.status.podIP "filePath=/userfunc/U") 2 0 ++
        [.post (loadAttempt (samplePool 2 "single")
          (sampleWorld fun i => if i < 2 then .failed dialError else .response 500)
          samplePod.status.podIP "filePath=/userfunc/U")])) :=
  (specializePod_stops_unless_dial (samplePool 2 "single")
    (sampleWorld fun i => if i < 2 then .failed dialError else .response 500)
    samplePod sampleFunction.metadata sampleFunction "filePath=/userfunc/U" 2
    ⟨by decide, rfl, rfl, rfl⟩ (by decide)
    (fun j hj => ⟨dialError, by
      show (if j < 2 then PostResult.failed dialError else PostResult.response 500) = _
      rw [if_pos hj], rfl⟩)).2.1 500 rfl (by decide)

/-! ## Pool size policy -/

theorem toInt32_of_inRange (x : Int) (hlo : -2 ^ 31 ≤ x) (hhi : x < 2 ^ 31) :
    toInt32 x = x := by
  unfold toInt32
  have h : (x + 2 ^ 31) % 2 ^ 32 = x + 2 ^ 31 :=
    Int.emod_eq_of_lt (by omega) (by omega)
  omega

/-- C6: `getEnvPoolsize` returns 3 for every environment of version below 3, and
for every environment of version 3 or more the declared `spec.poolsize` converted
to `int32` (the declared value itself whenever it fits 32 bits). -/
theorem getEnvPoolsize_policy (env : Environment) :
    (env.spec.version < 3 → getEnvPoolsize env = 3) ∧
    (3 ≤ env.spec.version → getEnvPoolsize env = toInt32 env.spec.poolsize) ∧
    (3 ≤ env.spec.version → -2 ^ 31 ≤ env.spec.poolsize → env.spec.poolsize < 2 ^ 31 →
      getEnvPoolsize env = env.spec.poolsize) := by
  refine ⟨fun h => ?_, fun h => ?_, fun h hlo hhi => ?_⟩
  · simp [getEnvPoolsize, h]
  · have : ¬ env.spec.version < 3 := by omega
    simp [getEnvPoolsize, this]
  · have : ¬ env.spec.version < 3 := by omega
    simp [getEnvPoolsize, this, toInt32_of_inRange _ hlo hhi]

/-- C6, at concrete inputs: a version 2 environment declaring 7, and a version 3
environment declaring 7. -/
theorem getEnvPoolsize_policy_witness :
    getEnvPoolsize { metadata := {}, spec := { version := 2, poolsize := 7 } } = 3 ∧
    getEnvPoolsize { metadata := {}, spec := { version := 3, poolsize := 7 } } = 7 :=
  ⟨(getEnvPoolsize_policy { metadata := {}, spec := { version := 2, poolsize := 7 } }).1
      (by decide),
   (getEnvPoolsize_policy { metadata := {}, spec := { version := 3, poolsize := 7 } }).2.2
      (by decide) (by decide) (by decide)⟩

/-! ## Pool manager: `CLEANUP_POOLS` -/

/-- The map after the cleanup loop: a key is gone when the loop still had to visit
it and the removal test holds for it; every other key is as before. -/
theorem cleanupLoop_lookup (set : AList (fun _ : String => Bool))
    (sizes : AList (fun _ : String => Int)) (k : String) :
    ∀ (es : List (Sigma (fun _ : String => GenericPool))) (pools : Pools)
      (destroyed : List (String × GenericPool)),
      (cleanupLoop set sizes es pools destroyed).1.lookup k =
        if removes set sizes k = true ∧ k ∈ es.keys then none else pools.lookup k := by
  intro es
  induction es with
  | nil => intro pools destroyed; simp [cleanupLoop]
  | cons e rest ih =>
    intro pools destroyed
    obtain ⟨key, pool⟩ := e
    by_cases hrm : removes set sizes key = true
    · have hstep : cleanupLoop set sizes (⟨key, pool⟩ :: rest) pools destroyed =
          cleanupLoop set sizes rest (pools.erase key) (destroyed ++ [(key, pool)]) := by
        have hrm2 := hrm
        unfold removes at hrm2
        simp only [cleanupLoop, hrm2, if_true]
      rw [hstep, ih]
      by_cases hk : k = key
      · subst hk
        simp [hrm, AList.lookup_erase]
      · have hmem : k ∈ List.keys (⟨key, pool⟩ :: rest) ↔ k ∈ List.keys rest := by
          simp [List.keys, hk]
        simp only [hmem, AList.lookup_erase_ne hk]
    · have hstep : cleanupLoop set sizes (⟨key, pool⟩ :: rest) pools destroyed =
          cleanupLoop set sizes rest pools destroyed := by
        have hrm2 := hrm
        unfold removes at hrm2
        simp only [cleanupLoop, hrm2]
        rfl
      rw [hstep, ih]
      by_cases hk : k = key
      · subst hk
        simp [hrm]
      · have hmem : k ∈ List.keys (⟨key, pool⟩ :: rest) ↔ k ∈ List.keys rest := by
          simp [List.keys, hk]
        simp only [hmem]

/-- The pools handed to `destroy` by the cleanup loop: those already recorded,
then every visited entry for which the removal test holds, in visiting order. -/
theorem cleanupLoop_destroyed (set : AList (fun _ : String => Bool))
    (sizes : AList (fun _ : String => Int)) :
    ∀ (es : List (Sigma (fun _ : String => GenericPool))) (pools : Pools)
      (destroyed : List (String × GenericPool)),
      (cleanupLoop set sizes es pools destroyed).2 =
        destroyed ++ (es.filter (fun e => removes set sizes e.1)).map (fun e => (e.1, e.2)) := by
  intro es
  induction es with
  | nil => intro pools destroyed; simp [cleanupLoop]
  | cons e rest ih =>
    intro pools destroyed
    obtain ⟨key, pool⟩ := e
    by_cases hrm : removes set sizes key = true
    · have hrm2 := hrm
      unfold removes at hrm2
      simp only [cleanupLoop, hrm2, if_true]
      rw [ih]
      simp [hrm]
    · have hrm2 := hrm
      unfold removes at hrm2
      simp only [cleanupLoop, hrm2]
      rw [if_neg (by simp), ih]
      simp [hrm]

/-- Looking a key up in a map filled by successive insertions finds the value of
the most recently inserted element with that key. -/
theorem lookup_foldr_insert {V : Type} (keyOf : Environment → String)
    (valOf : Environment → V) (k : String) (l : List Environment) :
    (l.foldr (fun env (acc : AList (fun _ : String => V)) =>
        acc.insert (keyOf env) (valOf env)) ∅).lookup k =
      (l.find? (fun env => decide (keyOf env = k))).map valOf := by
  induction l with
  | nil => simp
  | cons e l ih =>
    by_cases hk : keyOf e = k
    · subst hk
      simp [List.find?, AList.lookup_insert]
    · have hk2 : k ≠ keyOf e := fun h => hk h.symm
      simp only [List.foldr, List.find?, hk, decide_False]
      rw [AList.lookup_insert_ne hk2, ih]

theorem latestEnvSet_lookup (mw : ManagerWorld) (envList : List Environment) (k : String) :
    (latestEnvSet mw envList).lookup k =
      (envList.reverse.find? (fun env => decide (mw.cacheKey env.metadata = k))).map
        (fun _ => true) := by
  unfold latestEnvSet
  rw [← List.foldr_reverse]
  exact lookup_foldr_insert (fun env => mw.cacheKey env.metadata) (fun _ => true) k _

theorem latestEnvPoolsize_lookup (mw : ManagerWorld) (envList : List Environment)
    (k : String) :
    (latestEnvPoolsize mw envList).lookup k =
      (envList.reverse.find? (fun env => decide (mw.cacheKey env.metadata = k))).map
        getEnvPoolsize := by
  unfold latestEnvPoolsize
  rw [← List.foldr_reverse]
  exact lookup_foldr_insert (fun env => mw.cacheKey env.metadata) getEnvPoolsize k _

/-- The removal test of the cleanup loop holds for a key exactly when the key is
not listed with a non-zero target size. -/
theorem removes_iff_not_wanted (mw : ManagerWorld) (envList : List Environment)
    (k : String) :
    removes (latestEnvSet mw envList) (latestEnvPoolsize mw envList) k = true ↔
      ¬ Wanted mw envList k := by
  unfold removes Wanted targetSize
  rw [latestEnvSet_lookup, latestEnvPoolsize_lookup]
  cases hfind : envList.reverse.find? (fun env => decide (mw.cacheKey env.metadata = k)) with
  | none =>
    have hnone : ¬ ∃ env ∈ envList, mw.cacheKey env.metadata = k := by
      rintro ⟨env, hmem, hkey⟩
      have := List.find?_eq_none.mp hfind env (List.mem_reverse.mpr hmem)
      simp [hkey] at this
    simp [hnone]
  | some env =>
    have hmem : env ∈ envList := List.mem_reverse.mp (List.mem_of_find?_eq_some hfind)
    have hkey : mw.cacheKey env.metadata = k := by
      have := List.find?_some hfind
      simpa using this
    have hex : ∃ env ∈ envList, mw.cacheKey env.metadata = k := ⟨env, hmem, hkey⟩
    simp [hex]

/-- The target size of a key is the `envPoolsize` of the environment listed under
it, whenever all environments listed under that key agree on it. -/
theorem targetSize_of_listed (mw : ManagerWorld) (envList : List Environment)
    (env : Environment) (hmem : env ∈ envList)
    (hsame : ∀ e ∈ envList, mw.cacheKey e.metadata = mw.cacheKey env.metadata →
      getEnvPoolsize e = getEnvPoolsize env) :
    targetSize mw envList (mw.cacheKey env.metadata) = getEnvPoolsize env := by
  unfold targetSize
  cases hfind : envList.reverse.find?
      (fun e => decide (mw.cacheKey e.metadata = mw.cacheKey env.metadata)) with
  | none =>
    have := List.find?_eq_none.mp hfind env (List.mem_reverse.mpr hmem)
    simp at this
  | some e =>
    have he : e ∈ envList := List.mem_reverse.mp (List.mem_of_find?_eq_some hfind)
    have hkey : mw.cacheKey e.metadata = mw.cacheKey env.metadata := by
      have := List.find?_some hfind
      simpa using this
    simp [hsame e he hkey]

/-- A pool is in the map after the cleanup exactly when it was there before under
the same key and the key is wanted. -/
theorem cleanupPools_lookup (mw : ManagerWorld) (gpm : GenericPoolManager)
    (envList : List Environment) (key : String) (pool : GenericPool) :
    (cleanupPools mw gpm envList).1.pools.lookup key = some pool ↔
      (gpm.pools.lookup key = some pool ∧ Wanted mw envList key) := by
  unfold cleanupPools
  simp only
  rw [cleanupLoop_lookup]
  have hiff := removes_iff_not_wanted mw envList key
  by_cases hrm : removes (latestEnvSet mw envList) (latestEnvPoolsize mw envList) key = true
  · have hw : ¬ Wanted mw envList key := hiff.mp hrm
    by_cases hmem : key ∈ gpm.pools.entries.keys
    · simp [hrm, hw, hmem]
    · have hnone : gpm.pools.lookup key = none := AList.lookup_eq_none.mpr hmem
      simp [hrm, hw, hmem, hnone]
  · have hw : Wanted mw envList key := by
      by_contra hnw
      exact hrm (hiff.mpr hnw)
    simp [hrm, hw]

/-- The cleanup starts `destroy` on a pool exactly when the pool was in the map and
its key is not wanted. -/
theorem cleanupPools_destroyed (mw : ManagerWorld) (gpm : GenericPoolManager)
    (envList : List Environment) (key : String) (pool : GenericPool) :
    (key, pool) ∈ (cleanupPools mw gpm envList).2 ↔
      (gpm.pools.lookup key = some pool ∧ ¬ Wanted mw envList key) := by
  unfold cleanupPools
  simp only
  rw [cleanupLoop_destroyed]
  simp only [List.nil_append, List.mem_map, List.mem_filter]
  constructor
  · rintro ⟨⟨k2, p2⟩, ⟨hmem, hrm⟩, heq⟩
    simp only [Prod.mk.injEq] at heq
    obtain ⟨rfl, rfl⟩ := heq
    exact ⟨AList.mem_lookup_iff.mpr hmem, (removes_iff_not_wanted mw envList _).mp hrm⟩
  · rintro ⟨hlook, hw⟩
    exact ⟨⟨key, pool⟩, ⟨AList.mem_lookup_iff.mp hlook,
      (removes_iff_not_wanted mw envList key).mpr hw⟩, rfl⟩

/-- No key occurs twice among the pools on which the cleanup starts `destroy`. -/
theorem cleanupPools_destroyed_nodup (mw : ManagerWorld) (gpm : GenericPoolManager)
    (envList : List Environment) :
    ((cleanupPools mw gpm envList).2.map Prod.fst).Nodup := by
  unfold cleanupPools
  simp only
  rw [cleanupLoop_destroyed]
  simp only [List.nil_append, List.map_map]
  have hsub : List.Sublist
      ((gpm.pools.entries.filter
        (fun e => removes (latestEnvSet mw envList) (latestEnvPoolsize mw envList) e.1)).map
          (Prod.fst ∘ fun e => (e.1, e.2)))
      gpm.pools.entries.keys :=
    (List.filter_sublist (p := fun e : Sigma (fun _ : String => GenericPool) =>
      removes (latestEnvSet mw envList) (latestEnvPoolsize mw envList) e.1)
      gpm.pools.entries).map Sigma.fst
  exact hsub.nodup gpm.pools.keys_nodup

/-- C8: after `CLEANUP_POOLS(envList)` the map holds exactly the previously known
pools whose key appears in `envList` with a target size different from zero, each
under the same key with the same pool as before (so none is added); `destroy` is
started exactly on the previously known pools whose key is absent from `envList`
or has target size zero, once for each such key. -/
theorem cleanupPools_keeps_wanted (mw : ManagerWorld) (gpm : GenericPoolManager)
    (envList : List Environment) :
    (∀ key pool, (cleanupPools mw gpm envList).1.pools.lookup key = some pool ↔
      (gpm.pools.lookup key = some pool ∧ Wanted mw envList key)) ∧
    (∀ key pool, (key, pool) ∈ (cleanupPools mw gpm envList).2 ↔
      (gpm.pools.lookup key = some pool ∧ ¬ Wanted mw envList key)) ∧
    ((cleanupPools mw gpm envList).2.map Prod.fst).Nodup :=
  ⟨cleanupPools_lookup mw gpm envList, cleanupPools_destroyed mw gpm envList,
    cleanupPools_destroyed_nodup mw gpm envList⟩

/-! ## Pool manager: `GET_POOL` -/

/-- A `GET_POOL` for a key already in the map answers with the mapped pool,
constructs nothing and leaves the manager as it was. -/
theorem getPool_known (mw : ManagerWorld) (gpm : GenericPoolManager) (env : Environment)
    (pool : GenericPool) (h : gpm.pools.lookup (mw.cacheKey env.metadata) = some pool) :
    (getPool mw gpm env).result = .ok pool ∧ (getPool mw gpm env).constructed = [] ∧
      (getPool mw gpm env).gpm = gpm := by
  unfold getPool
  simp [h]

/-- After a successful `GET_POOL` the returned pool is in the map under the
environment's key. -/
theorem getPool_ok_lookup (mw : ManagerWorld) (gpm : GenericPoolManager) (env : Environment)
    (pool : GenericPool) (h : (getPool mw gpm env).result = .ok pool) :
    (getPool mw gpm env).gpm.pools.lookup (mw.cacheKey env.metadata) = some pool := by
  unfold getPool at h ⊢
  cases hl : gpm.pools.lookup (mw.cacheKey env.metadata) with
  | some p =>
    simp only [hl] at h ⊢
    simp only [Except.ok.injEq] at h
    rw [h]
  | none =>
    simp only [hl] at h ⊢
    split at h
    · simp at h
    · rename_i p hmk
      simp only [Except.ok.injEq] at h
      simp only [hmk]
      rw [AList.lookup_insert, h]

/-- A `GET_POOL` never changes what a key already in the map is mapped to. -/
theorem getPool_preserves (mw : ManagerWorld) (gpm : GenericPoolManager) (env : Environment)
    (key : String) (pool : GenericPool) (h : gpm.pools.lookup key = some pool) :
    (getPool mw gpm env).gpm.pools.lookup key = some pool := by
  unfold getPool
  cases hl : gpm.pools.lookup (mw.cacheKey env.metadata) with
  | some p => simpa using h
  | none =>
    have hne : key ≠ mw.cacheKey env.metadata := by
      intro heq
      rw [heq, hl] at h
      exact Option.noConfusion h
    simp only
    split
    · simpa using h
    · simp only
      rw [AList.lookup_insert_ne hne]
      exact h

/-- Requests that do not remove a key leave its pool in place. -/
theorem service_preserves (mw : ManagerWorld) (key : String) (pool : GenericPool) :
    ∀ (reqs : List Request) (gpm : GenericPoolManager),
      gpm.pools.lookup key = some pool →
      (∀ envList, Request.CLEANUP_POOLS envList ∈ reqs → Wanted mw envList key) →
      (service mw gpm reqs).pools.lookup key = some pool := by
  intro reqs
  induction reqs with
  | nil => intro gpm h _; exact h
  | cons r rest ih =>
    intro gpm h hw
    have hstep : (serviceStep mw gpm r).pools.lookup key = some pool := by
      cases r with
      | GET_POOL env => exact getPool_preserves mw gpm env key pool h
      | CLEANUP_POOLS envList =>
        exact (cleanupPools_lookup mw gpm envList key pool).mpr
          ⟨h, hw envList (List.mem_cons_self _ _)⟩
    exact ih (serviceStep mw gpm r) hstep
      (fun envList hmem => hw envList (List.mem_cons_of_mem _ hmem))

/-- C7: if `GetPool(env)` succeeds with a pool, and every `CLEANUP_POOLS` request
served afterwards keeps the key (lists it with a non-zero target size), then
after any such sequence of requests a `GetPool(env')` for the same key returns
that same pool, makes no `MakeGenericPool` call and leaves the manager, its
`pools` map included, unchanged. -/
theorem getPool_repeated (mw : ManagerWorld) (gpm : GenericPoolManager)
    (env env' : Environment) (reqs : List Request) (pool : GenericPool)
    (hfirst : (getPool mw gpm env).result = .ok pool)
    (hkey : mw.cacheKey env'.metadata = mw.cacheKey env.metadata)
    (hkeep : ∀ envList, Request.CLEANUP_POOLS envList ∈ reqs →
      Wanted mw envList (mw.cacheKey env.metadata)) :
    (getPool mw (service mw (getPool mw gpm env).gpm reqs) env').result = .ok pool ∧
    (getPool mw (service mw (getPool mw gpm env).gpm reqs) env').constructed = [] ∧
    (getPool mw (service mw (getPool mw gpm env).gpm reqs) env').gpm =
      service mw (getPool mw gpm env).gpm reqs := by
  have h1 := getPool_ok_lookup mw gpm env pool hfirst
  have h2 := service_preserves mw (mw.cacheKey env.metadata) pool reqs _ h1 hkeep
  rw [← hkey] at h2
  exact getPool_known mw _ env' pool h2

/-- C7, at a concrete input: the pool of `py` is created on an empty manager, a
pool for `node` is created and a cleanup listing both is served; a second
`GetPool` for `py` constructs nothing and changes nothing. -/
theorem getPool_repeated_witness :
    (getPool sampleManagerWorld
      (service sampleManagerWorld (getPool sampleManagerWorld {} (sampleEnv 2 "single")).gpm
        sampleRequests) (sampleEnv 2 "single")).constructed = [] ∧
    (getPool sampleManagerWorld
      (service sampleManagerWorld (getPool sampleManagerWorld {} (sampleEnv 2 "single")).gpm
        sampleRequests) (sampleEnv 2 "single")).gpm =
      service sampleManagerWorld (getPool sampleManagerWorld {} (sampleEnv 2 "single")).gpm
        sampleRequests :=
  (getPool_repeated sampleManagerWorld {} (sampleEnv 2 "single") (sampleEnv 2 "single")
    sampleRequests _ rfl rfl (by
      intro envList hmem
      simp only [sampleRequests, List.mem_cons, List.mem_singleton, Request.CLEANUP_POOLS.injEq,
        List.not_mem_nil, or_false, false_or] at hmem
      rcases hmem with hne | rfl
      · exact Request.noConfusion hne
      refine ⟨⟨sampleEnv 2 "single", by simp, rfl⟩, ?_⟩
      decide)).2

/-! ## Choosing a pod -/

theorem string_length_eq_zero (s : String) : s.length = 0 ↔ s = "" := by
  constructor
  · intro h
    have hd : s.data = [] := List.length_eq_zero.mp h
    exact String.ext hd
  · intro h
    rw [h]
    rfl

theorem foldl_ready (l : List ContainerStatus) (b : Bool) :
    l.foldl (fun podReady cs => podReady && cs.ready) b = true ↔
      (b = true ∧ ∀ cs ∈ l, cs.ready = true) := by
  induction l generalizing b with
  | nil => simp
  | cons cs l ih =>
    simp only [List.foldl, ih, Bool.and_eq_true, List.mem_cons, forall_eq_or_imp]
    tauto

/-- The candidate set built by the filter loop of `_choosePod` is the listing
filtered by the readiness predicate. -/
theorem readyPods_eq_filter (items : List Pod) :
    readyPods items = items.filter (fun pod => decide (ReadyPod pod)) := by
  induction items with
  | nil => rfl
  | cons pod items ih =>
    unfold readyPods
    by_cases h1 : (pod.status.podIP.length = 0 || pod.status.phase != POD_PHASE_RUNNING) = true
    · have hnr : ¬ ReadyPod pod := by
        intro hr
        simp only [Bool.or_eq_true, decide_eq_true_eq, bne_iff_ne, ne_eq] at h1
        rcases h1 with h | h
        · exact hr.2.1 ((string_length_eq_zero _).mp h)
        · exact h hr.1
      simp only [h1, if_true, ih, List.filter_cons, hnr, decide_False]
      rfl
    · simp only [h1]
      simp only [Bool.or_eq_true, decide_eq_true_eq, bne_iff_ne, ne_eq, not_or, not_not] at h1
      have hip : pod.status.podIP ≠ "" := fun h => h1.1 ((string_length_eq_zero _).mpr h)
      by_cases h2 : pod.status.containerStatuses.foldl
          (fun podReady cs => podReady && cs.ready) true = true
      · have hr : ReadyPod pod := ⟨h1.2, hip, ((foldl_ready _ true).mp h2).2⟩
        simp [h2, ih, List.filter_cons, hr]
      · have hnr : ¬ ReadyPod pod := fun hr => h2 ((foldl_ready _ true).mpr ⟨rfl, hr.2.2⟩)
        simp [h2, ih, List.filter_cons, hnr]

theorem readyPod_relabel (pod : Pod) (newLabels : Labels) :
    ReadyPod (relabel pod newLabels) ↔ ReadyPod pod := Iff.rfl

/-- The refresh of `gp.deployment` in `waitForReadyPod` is the only change it makes
to the pool. -/
theorem waitForReadyPod_env (k : Kube) (startTime : Nat) :
    ∀ (fuel : Nat) (gp : GenericPool) (c : Clock) (r : Option GoError) (gp1 : GenericPool)
      (c1 : Clock), waitForReadyPod k startTime fuel gp c = some (r, gp1, c1) →
      gp1.env = gp.env ∧ gp1.instanceId = gp.instanceId := by
  intro fuel
  induction fuel with
  | zero => intro gp c r gp1 c1 h; simp [waitForReadyPod] at h
  | succ fuel ih =>
    intro gp c r gp1 c1 h
    rw [waitForReadyPod] at h
    split at h
    · simp only [Option.some.injEq, Prod.mk.injEq] at h
      obtain ⟨_, rfl, _⟩ := h
      exact ⟨rfl, rfl⟩
    · simp only at h
      split at h
      · simp only [Option.some.injEq, Prod.mk.injEq] at h
        obtain ⟨_, rfl, _⟩ := h
        exact ⟨rfl, rfl⟩
      · split at h
        · simp only [Option.some.injEq, Prod.mk.injEq] at h
          obtain ⟨_, rfl, _⟩ := h
          exact ⟨rfl, rfl⟩
        · have := ih _ _ _ _ _ h
          exact this

/-- What a successful `_choosePod` returned: a member `chosen` of the candidate set
of its last listing (call `n`), returned as listed when the environment shares
containers, and otherwise returned with the new labels after the orchestrator
accepted the update (call `n + 1`).  The pool keeps its environment. -/
theorem choosePod_ok_from_listing (k : Kube) (newLabels : Labels) (startTime : Nat) :
    ∀ (fuel : Nat) (gp : GenericPool) (c : Clock) (pod : Pod) (gp1 : GenericPool)
      (c1 : Clock),
      _choosePod k newLabels startTime fuel gp c = some (.ok pod, gp1, c1) →
      gp1.env = gp.env ∧ gp1.instanceId = gp.instanceId ∧
      ∃ n items chosen,
        k.listPods n gp1.deployment.matchLabels = .ok items ∧ chosen ∈ readyPods items ∧
        ((gp1.env.spec.allowedFunctionsPerContainer = AllowedFunctionsPerContainerInfinite ∧
            pod = chosen ∧ c1.calls = n + 1) ∨
          (gp1.env.spec.allowedFunctionsPerContainer ≠ AllowedFunctionsPerContainerInfinite ∧
            pod = relabel chosen newLabels ∧ c1.calls = n + 2 ∧
            k.updatePod (n + 1) pod = none)) := by
  intro fuel
  induction fuel with
  | zero => intro gp c pod gp1 c1 h; simp [_choosePod] at h
  | succ fuel ih =>
    intro gp c pod gp1 c1 h
    rw [_choosePod] at h
    by_cases ht : c.now - startTime > gp.podReadyTimeout
    · simp [ht] at h
    · simp only [ht, if_false] at h
      cases hl : k.listPods c.calls gp.deployment.matchLabels with
      | error err => simp [hl] at h
      | ok items =>
        simp only [hl] at h
        cases hr : readyPods items with
        | nil =>
          simp only [hr] at h
          cases hw : waitForReadyPod k (c.tick k).now (fuel + 1) gp (c.tick k) with
          | none => simp [hw] at h
          | some r =>
            obtain ⟨e, gp2, c2⟩ := r
            cases e with
            | some err => simp [hw] at h
            | none =>
              simp only [hw] at h
              have henv := waitForReadyPod_env k _ _ _ _ _ _ _ hw
              obtain ⟨h1, h2, rest⟩ := ih gp2 c2 pod gp1 c1 h
              exact ⟨h1.trans henv.1, h2.trans henv.2, rest⟩
        | cons p ps =>
          simp only [hr] at h
          have hmem : (p :: ps).getD (k.rand (c.tick k).calls % (p :: ps).length) p
              ∈ readyPods items := by
            rw [hr]
            have hlt : k.rand (c.tick k).calls % (p :: ps).length < (p :: ps).length :=
              Nat.mod_lt _ (by simp)
            rw [List.getD_eq_getElem _ _ hlt]
            exact List.getElem_mem _
          by_cases hm : gp.env.spec.allowedFunctionsPerContainer
              = AllowedFunctionsPerContainerInfinite
          · simp only [hm, ne_eq, not_true_eq_false, if_false] at h
            simp only [Option.some.injEq, Prod.mk.injEq, Except.ok.injEq] at h
            obtain ⟨rfl, rfl, rfl⟩ := h
            exact ⟨rfl, rfl, c.calls, items, _, hl, hmem, Or.inl ⟨hm, rfl, rfl⟩⟩
          · simp only [ne_eq, hm, not_false_eq_true, if_true] at h
            cases hu : k.updatePod (c.tick k).calls
                (relabel ((p :: ps).getD (k.rand (c.tick k).calls % (p :: ps).length) p)
                  newLabels) with
            | some err =>
              simp only [hu] at h
              exact ih gp ((c.tick k).tick k) pod gp1 c1 h
            | none =>
              simp only [hu] at h
              simp only [Option.some.injEq, Prod.mk.injEq, Except.ok.injEq] at h
              obtain ⟨rfl, rfl, rfl⟩ := h
              exact ⟨rfl, rfl, c.calls, items, _, hl, hmem, Or.inr ⟨hm, rfl, rfl, hu⟩⟩

/-- C9: every pod returned successfully by `_choosePod` satisfies the readiness
predicate (phase `Running`, non-empty pod IP, every container status ready) and
comes from the last pool listing: the candidate set `readyPods` is that listing
filtered by the predicate, and the returned pod is a member `chosen` of it,
carrying the new labels when the pool relabels. -/
theorem choosePod_returns_ready (k : Kube) (newLabels : Labels) (startTime fuel : Nat)
    (gp : GenericPool) (c : Clock) (pod : Pod) (gp1 : GenericPool) (c1 : Clock)
    (h : _choosePod k newLabels startTime fuel gp c = some (.ok pod, gp1, c1)) :
    ReadyPod pod ∧
    ∃ n items chosen,
      k.listPods n gp1.deployment.matchLabels = .ok items ∧
      readyPods items = items.filter (fun p => decide (ReadyPod p)) ∧
      chosen ∈ readyPods items ∧ chosen ∈ items ∧ ReadyPod chosen ∧
      ((pod = chosen ∧ c1.calls = n + 1) ∨
        (pod = relabel chosen newLabels ∧ c1.calls = n + 2)) := by
  obtain ⟨_, _, n, items, chosen, hlist, hmem, hcase⟩ :=
    choosePod_ok_from_listing k newLabels startTime fuel gp c pod gp1 c1 h
  have hfilter := readyPods_eq_filter items
  have hmem2 : chosen ∈ items.filter (fun p => decide (ReadyPod p)) := hfilter ▸ hmem
  have hin : chosen ∈ items := (List.mem_filter.mp hmem2).1
  have hready : ReadyPod chosen := by
    have := (List.mem_filter.mp hmem2).2
    simpa using this
  have hpod : ReadyPod pod := by
    rcases hcase with ⟨_, rfl, _⟩ | ⟨_, rfl, _, _⟩
    · exact hready
    · exact (readyPod_relabel chosen newLabels).mpr hready
  refine ⟨hpod, n, items, chosen, hlist, hfilter, hmem, hin, hready, ?_⟩
  rcases hcase with ⟨_, h1, h2⟩ | ⟨_, h1, h2, _⟩
  · exact Or.inl ⟨h1, h2⟩
  · exact Or.inr ⟨h1, h2⟩

/-- C9, at a concrete input: the listing holds one ready pod, which is relabeled
and returned. -/
theorem choosePod_returns_ready_witness :
    ReadyPod (relabel samplePod [("functionName", "f")]) :=
  (choosePod_returns_ready sampleKube [("functionName", "f")] 0 1 (samplePool 2 "single") {}
    (relabel samplePod [("functionName", "f")]) (samplePool 2 "single") { now := 2, calls := 2 }
    rfl).1

/-- A `FuncSvc` registered by `GetFuncSvc` is named after the chosen pod. -/
theorem registerFuncSvc_name (cacheAdd : FuncSvc → Option GoError) (gp1 : GenericPool)
    (pod : Pod) (m : ObjectMeta) (events : List Event) (svcHost : String) (c3 : Clock)
    (fsvc : FuncSvc)
    (h : (registerFuncSvc cacheAdd gp1 pod m events svcHost c3).result = .ok fsvc) :
    fsvc.name = pod.objectMeta.name := by
  unfold registerFuncSvc at h
  simp only at h
  split at h
  · simp at h
  · simp only [Except.ok.injEq] at h
    rw [← h]

/-- C10 fails as stated: in an environment with
`allowedFunctionsPerContainer = infinite`, `GetFuncSvc` returns a `FuncSvc` for the
pod chosen by `choosePod`, and that pod still carries the pool labels, which are
not the function labels. -/
theorem GetFuncSvc_infinite_keeps_pool_labels :
    (samplePool 2 AllowedFunctionsPerContainerInfinite).env.spec.allowedFunctionsPerContainer
      = AllowedFunctionsPerContainerInfinite ∧
    (GetFuncSvc sampleKube (sampleWorld fun _ => .response 200) (fun _ => none) 1
      (samplePool 2 AllowedFunctionsPerContainerInfinite) {} sampleFunction.metadata).map
        (fun o => o.result.toOption.map (fun fsvc => fsvc.name)) = some (some "pod-1") ∧
    choosePod sampleKube
      (labelsForFunction (samplePool 2 AllowedFunctionsPerContainerInfinite)
        sampleFunction.metadata) 1
      (samplePool 2 AllowedFunctionsPerContainerInfinite) {} =
      some (.ok samplePod, samplePool 2 AllowedFunctionsPerContainerInfinite,
        { now := 1, calls := 1 }) ∧
    samplePod.objectMeta.labels = samplePoolLabels ∧
    samplePod.objectMeta.labels ≠
      labelsForFunction (samplePool 2 AllowedFunctionsPerContainerInfinite)
        sampleFunction.metadata := by
  refine ⟨rfl, rfl, rfl, rfl, ?_⟩
  decide

/-- C10, amended: for every environment whose `allowedFunctionsPerContainer` is not
infinite and every function metadata `m`, if `GetFuncSvc(m)` returns a `FuncSvc`
then it names the pod chosen by `choosePod`, the labels of that pod equal
`labelsForFunction(m)`, and the orchestrator accepted the update that wrote
them. -/
theorem GetFuncSvc_labels_when_relabeling (k : Kube) (w : SpecializeWorld)
    (cacheAdd : FuncSvc → Option GoError) (fuel : Nat) (gp : GenericPool) (c : Clock)
    (m : ObjectMeta) (fsvc : FuncSvc)
    (hmode : gp.env.spec.allowedFunctionsPerContainer ≠ AllowedFunctionsPerContainerInfinite)
    (h : (GetFuncSvc k w cacheAdd fuel gp c m).map (fun o => o.result) = some (.ok fsvc)) :
    ∃ pod gp1 c1,
      choosePod k (labelsForFunction gp m) fuel gp c = some (.ok pod, gp1, c1) ∧
      fsvc.name = pod.objectMeta.name ∧
      pod.objectMeta.labels = labelsForFunction gp m ∧
      labelsForFunction gp m =
        [ ("functionName", m.name), ("functionUid", m.uid), ("unmanaged", "true"),
          ("executorInstanceId", gp.instanceId) ] ∧
      ∃ n, k.updatePod n pod = none := by
  unfold GetFuncSvc at h
  cases hch : choosePod k (labelsForFunction gp m) fuel gp c with
  | none => simp [hch] at h
  | some r =>
    obtain ⟨res, gp1, c1⟩ := r
    cases res with
    | error err => simp [hch] at h
    | ok pod =>
      simp only [hch] at h
      obtain ⟨henv, _, n, items, chosen, _, _, hcase⟩ :=
        choosePod_ok_from_listing k (labelsForFunction gp m) c.now fuel gp c pod gp1 c1 hch
      have hname : fsvc.name = pod.objectMeta.name := by
        cases hsp : (specializePod gp1 w pod m).1 with
        | some err => simp [hsp] at h
        | none =>
          simp only [hsp] at h
          by_cases hsvc : gp1.useSvc = true
          · simp only [hsvc, if_true] at h
            cases hcs : k.createSvc (c1.sleep (totalSleep (specializePod gp1 w pod m).2)).calls
                (svcNameFor m) (labelsForFunction gp1 m) with
            | error err => simp [hcs] at h
            | ok createdName =>
              simp only [hcs] at h
              by_cases hsane : createdName ≠ svcNameFor m
              · simp [hsane] at h
              · simp only [hsane, if_false, Option.map_some', Option.some.injEq] at h
                exact registerFuncSvc_name cacheAdd gp1 pod m _ _ _ fsvc h
          · simp only [hsvc, Bool.false_eq_true, if_false, Option.map_some',
              Option.some.injEq] at h
            exact registerFuncSvc_name cacheAdd gp1 pod m _ _ _ fsvc h
      rcases hcase with ⟨hinf, _, _⟩ | ⟨_, hpod, _, hupd⟩
      · exact absurd (henv ▸ hinf) hmode
      · refine ⟨pod, gp1, c1, rfl, hname, ?_, rfl, n + 1, hupd⟩
        rw [hpod]
        rfl

/-- C10 amended, at a concrete input: a relabeling pool with one ready pod and a
runtime that answers 200. -/
theorem GetFuncSvc_labels_when_relabeling_witness :
    ∃ pod gp1 c1,
      choosePod sampleKube (labelsForFunction (samplePool 2 "single") sampleFunction.metadata) 1
        (samplePool 2 "single") {} = some (.ok pod, gp1, c1) ∧
      "pod-1" = pod.objectMeta.name ∧
      pod.objectMeta.labels = labelsForFunction (samplePool 2 "single") sampleFunction.metadata :=
  have h := GetFuncSvc_labels_when_relabeling sampleKube (sampleWorld fun _ => .response 200)
    (fun _ => none) 1 (samplePool 2 "single") {} sampleFunction.metadata
    { name := "pod-1", function := sampleFunction.metadata,
      environment := sampleEnv 2 "single", address := "10.0.0.1:8888",
      kubernetesObjects :=
        [ { kind := "pod", name := "pod-1", apiVersion := "", ns := "fission-function",
            resourceVersion := "", uid := "" } ],
      executor := "poolmgr", ctime := 2, atime := 2 }
    (by decide) (by rfl)
  h.imp fun _ h1 => h1.imp fun _ h2 => h2.imp fun _ h3 => ⟨h3.1, h3.2.1, h3.2.2.1⟩

/-! ## Pool labels and function labels -/

/-- Every pool returned by `MakeGenericPool` carries the four pool labels. -/
theorem MakeGenericPool_labelled (mw : ManagerWorld) (n : Nat) (env : Environment)
    (initialReplicas : Int) (ns instanceId : String) (gp : GenericPool)
    (h : MakeGenericPool mw n env initialReplicas ns instanceId = .ok gp) :
    PoolLabelled gp ∧ gp.env = env ∧ gp.instanceId = instanceId := by
  unfold MakeGenericPool createPool at h
  simp only at h
  split at h
  · exact Except.noConfusion h
  · split at h
    · exact Except.noConfusion h
    · simp only [Except.ok.injEq] at h
      subst h
      exact ⟨rfl, rfl, rfl⟩

/-- The function labels lack the key `environmentName`, so no selector that
requires it selects them. -/
theorem selectorMatches_function_labels (gp : GenericPool) (m : ObjectMeta)
    (h : PoolLabelled gp) :
    selectorMatches gp.labelsForPool (labelsForFunction gp m) = false := by
  rw [h]
  simp [selectorMatches, labelsForFunction, List.lookup, EXECUTOR_INSTANCEID_LABEL]

/-- After an accepted update, every stored object of the updated name is the
object that was sent. -/
theorem applyUpdate_named (store : PodStore) (pod p : Pod) (hp : p ∈ applyUpdate store pod)
    (hname : p.objectMeta.name = pod.objectMeta.name) : p = pod := by
  unfold applyUpdate at hp
  obtain ⟨q, _, hq⟩ := List.mem_map.mp hp
  by_cases hqn : q.objectMeta.name = pod.objectMeta.name
  · rw [if_pos hqn] at hq
    exact hq.symm
  · rw [if_neg hqn] at hq
    rw [← hq] at hname
    exact absurd hname hqn

/-- While a name is untouched, its objects in a later store come from the earlier
store. -/
theorem untouched_from (stores : Nat → PodStore) (name : String) (a : Nat) :
    ∀ (d : Nat), Untouched stores name a (a + d) →
      ∀ p ∈ stores (a + d), p.objectMeta.name = name → p ∈ stores a := by
  intro d
  induction d with
  | zero => intro _ p hp _; exact hp
  | succ d ih =>
    intro hun p hp hname
    have hprev : p ∈ stores (a + d) := hun (a + d) (by omega) (by omega) p hp hname
    exact ih (fun j h1 h2 => hun j h1 (by omega)) p hprev hname

/-- C11: every pool made by `MakeGenericPool` has the selector labels
`environmentName`, `environmentUid`, `executorInstanceId` and
`executorType=poolmgr`, and for every such pool and every function metadata `m`
the label set `labelsForFunction(m)` does not satisfy that selector.  Hence, for
an orchestrator that answers listings from its pod store and applies accepted
updates to it: when `_choosePod` returns a pod after a successful relabel
(environment not shared), that replica was stored and listed under its name
before the update, and every later listing by the pool-label selector, as long
as nobody else recreates or changes the object of that name, contains no pod of
that name. -/
theorem function_labels_leave_pool (gp : GenericPool) (m : ObjectMeta)
    (hlab : PoolLabelled gp) :
    (∀ (mw : ManagerWorld) (n : Nat) (env : Environment) (initialReplicas : Int)
        (ns instanceId : String) (gp0 : GenericPool),
        MakeGenericPool mw n env initialReplicas ns instanceId = .ok gp0 → PoolLabelled gp0) ∧
    gp.labelsForPool =
      [ ("environmentName", gp.env.metadata.name), ("environmentUid", gp.env.metadata.uid),
        ("executorInstanceId", gp.instanceId), ("executorType", "poolmgr") ] ∧
    selectorMatches gp.labelsForPool (labelsForFunction gp m) = false ∧
    (∀ (k : Kube) (stores : Nat → PodStore) (startTime fuel : Nat) (c : Clock) (pod : Pod)
        (gp1 : GenericPool) (c1 : Clock),
        ServedBy k stores →
        gp.env.spec.allowedFunctionsPerContainer ≠ AllowedFunctionsPerContainerInfinite →
        _choosePod k (labelsForFunction gp m) startTime fuel gp c = some (.ok pod, gp1, c1) →
        pod.objectMeta.labels = labelsForFunction gp m ∧
        selectorMatches gp.labelsForPool pod.objectMeta.labels = false ∧
        (∃ n items chosen,
          k.listPods n gp1.deployment.matchLabels = .ok items ∧
          chosen ∈ items ∧ chosen ∈ stores n ∧
          chosen.objectMeta.name = pod.objectMeta.name ∧
          c1.calls = n + 2 ∧ k.updatePod (n + 1) pod = none ∧
          stores c1.calls = applyUpdate (stores (n + 1)) pod) ∧
        (∀ (listing : List Pod),
          k.listPods c1.calls gp.labelsForPool = .ok listing →
          ∀ p ∈ listing, p.objectMeta.name ≠ pod.objectMeta.name) ∧
        ∀ (later : Nat) (listing : List Pod),
          c1.calls ≤ later →
          Untouched stores pod.objectMeta.name c1.calls later →
          k.listPods later gp.labelsForPool = .ok listing →
          ∀ p ∈ listing, p.objectMeta.name ≠ pod.objectMeta.name) := by
  have hsel := selectorMatches_function_labels gp m hlab
  refine ⟨fun mw n env r ns id gp0 h => (MakeGenericPool_labelled mw n env r ns id gp0 h).1,
    hlab, hsel, ?_⟩
  intro k stores startTime fuel c pod gp1 c1 hserved hmode hch
  obtain ⟨hlist, hupdate⟩ := hserved
  obtain ⟨henv, _, n, items, chosen, hitems, hready, hcase⟩ :=
    choosePod_ok_from_listing k (labelsForFunction gp m) startTime fuel gp c pod gp1 c1 hch
  obtain ⟨hpodeq, hcalls, hupd⟩ :
      pod = relabel chosen (labelsForFunction gp m) ∧ c1.calls = n + 2 ∧
        k.updatePod (n + 1) pod = none := by
    rcases hcase with ⟨hinf, _, _⟩ | ⟨_, h1, h2, h3⟩
    · exact absurd (henv ▸ hinf) hmode
    · exact ⟨h1, h2, h3⟩
  have hpod : pod.objectMeta.labels = labelsForFunction gp m := by
    rw [hpodeq]
    rfl
  have hname : chosen.objectMeta.name = pod.objectMeta.name := by
    rw [hpodeq]
    rfl
  have hin : chosen ∈ items := by
    have h1 : chosen ∈ items.filter (fun p => decide (ReadyPod p)) :=
      readyPods_eq_filter items ▸ hready
    exact (List.mem_filter.mp h1).1
  have hstored : chosen ∈ stores n := by
    have h1 := hlist n _ items hitems
    rw [h1] at hin
    exact (List.mem_filter.mp hin).1
  have hstore : stores c1.calls = applyUpdate (stores (n + 1)) pod := by
    rw [hcalls]
    exact hupdate (n + 1) pod hupd
  have hlater : ∀ (later : Nat) (listing : List Pod), c1.calls ≤ later →
      Untouched stores pod.objectMeta.name c1.calls later →
      k.listPods later gp.labelsForPool = .ok listing →
      ∀ p ∈ listing, p.objectMeta.name ≠ pod.objectMeta.name := by
    intro later listing hle hun hlisting p hp hpname
    have h1 := hlist later _ listing hlisting
    rw [h1] at hp
    obtain ⟨hpstore, hpsel⟩ := List.mem_filter.mp hp
    obtain ⟨d, rfl⟩ : ∃ d, later = c1.calls + d := ⟨later - c1.calls, by omega⟩
    have hp0 : p ∈ stores c1.calls :=
      untouched_from stores pod.objectMeta.name c1.calls d hun p hpstore hpname
    rw [hstore] at hp0
    have hpeq : p = pod := applyUpdate_named _ pod p hp0 hpname
    rw [hpeq, hpod, hsel] at hpsel
    exact Bool.noConfusion hpsel
  refine ⟨hpod, by rw [hpod]; exact hsel,
    ⟨n, items, chosen, hitems, hin, hstored, hname, hcalls, hupd, hstore⟩, ?_, hlater⟩
  intro listing hlisting
  exact hlater c1.calls listing (le_refl _) (fun j h1 h2 => by omega) hlisting

/-- C11, at a concrete input: the orchestrator stores `pod-1` and `pod-3`; the
listing of call 0 holds both, `_choosePod` relabels `pod-1` at call 1, and the
listings of calls 2 and 3 by the pool-label selector hold `pod-3` only. -/
theorem function_labels_leave_pool_witness :
    storeKube.listPods 0 (samplePool 2 "single").labelsForPool =
      .ok [samplePod, secondPod] ∧
    samplePod.objectMeta.name = "pod-1" ∧
    _choosePod storeKube (labelsForFunction (samplePool 2 "single") sampleFunction.metadata)
      0 1 (samplePool 2 "single") { now := 0, calls := 0 } =
      some (.ok relabeledSamplePod, samplePool 2 "single", { now := 2, calls := 2 }) ∧
    storeKube.listPods 2 (samplePool 2 "single").labelsForPool = .ok [secondPod] ∧
    storeKube.listPods 3 (samplePool 2 "single").labelsForPool = .ok [secondPod] ∧
    (∀ p ∈ [secondPod], p.objectMeta.name ≠ "pod-1") ∧
    ∀ p ∈ [secondPod], p.objectMeta.name ≠ relabeledSamplePod.objectMeta.name :=
  have hserved : ServedBy storeKube sampleStores :=
    ⟨fun n sel items h => by
        simp only [storeKube, Except.ok.injEq] at h
        exact h.symm,
      fun n pod h => by
        by_cases hc : n = 1 ∧ pod = relabeledSamplePod
        · obtain ⟨rfl, rfl⟩ := hc
          decide
        · simp [storeKube, hc] at h⟩
  have h := (function_labels_leave_pool (samplePool 2 "single") sampleFunction.metadata rfl).2.2.2
    storeKube sampleStores 0 1 { now := 0, calls := 0 } relabeledSamplePod
    (samplePool 2 "single") { now := 2, calls := 2 } hserved (by decide) rfl
  ⟨rfl, rfl, rfl, rfl, rfl, h.2.2.2.1 [secondPod] rfl,
    h.2.2.2.2 3 [secondPod] (by decide) (fun j h1 h2 p hp _ => by
      have h3 : (2 : Nat) ≤ j := h1
      have h4 : j < 3 := h2
      have hj : j = 2 := by omega
      subst hj
      exact hp) rfl⟩

/-! ## Waiting for a ready pod -/

/-- While the Deployment reports no available replica and its lookups succeed,
`waitForReadyPod` polls once a second and, given fuel for the polls, returns its
own timeout error once more than `podReadyTimeout` has passed since its start. -/
theorem waitForReadyPod_never_available (k : Kube) (startTime : Nat)
    (hdepl : ∀ n name, ∃ d, k.getDeployment n name = .ok d ∧ d.availableReplicas = 0) :
    ∀ (fuel : Nat) (gp : GenericPool) (c : Clock),
      startTime ≤ c.now → 1 ≤ fuel →
      gp.podReadyTimeout < (c.now - startTime) + (fuel - 1) * 1000000000 →
      ∃ gp1 c1,
        waitForReadyPod k startTime fuel gp c =
          some (some (.text "timeout: waited too long for pod to be ready"), gp1, c1) ∧
        gp.podReadyTimeout < c1.now - startTime := by
  intro fuel
  induction fuel with
  | zero => intro gp c _ h; omega
  | succ f ih =>
    intro gp c hstart _ hbudget
    obtain ⟨d, hd, hav⟩ := hdepl c.calls gp.deployment.name
    rw [waitForReadyPod]
    simp only [hd, hav, gt_iff_lt, lt_self_iff_false, if_false]
    by_cases ht : gp.podReadyTimeout < (c.tick k).now - startTime
    · exact ⟨{ gp with deployment := d }, c.tick k, by simp only [ht, if_true], ht⟩
    · simp only [ht, if_false]
      have htick : (c.tick k).now = c.now + k.latency c.calls := rfl
      have hsleep : ((c.tick k).sleep (1000 * 1000000)).now =
          c.now + k.latency c.calls + 1000 * 1000000 := rfl
      have hf : 1 ≤ f := by
        by_contra hf0
        have : f = 0 := by omega
        subst this
        omega
      have := ih { gp with deployment := d } ((c.tick k).sleep (1000 * 1000000))
        (by omega) hf (by
          show gp.podReadyTimeout < _
          omega)
      exact this

/-- C12, amended: for a pool in which no replica ever becomes ready (every listing
has an empty ready set and the Deployment's `AvailableReplicas` stays 0) and no
orchestrator call fails, `_choosePod` (started at the current time, with fuel
for one poll per second of the timeout) does return, not before
`podReadyTimeout` has elapsed, and the error it returns is the timeout of
`waitForReadyPod`, with exactly the message
`timeout: waited too long for pod to be ready`. -/
theorem choosePod_never_ready (k : Kube) (newLabels : Labels) (fuel : Nat)
    (gp : GenericPool) (c : Clock)
    (hlist : ∀ n sel, ∃ items, k.listPods n sel = .ok items ∧ readyPods items = [])
    (hdepl : ∀ n name, ∃ d, k.getDeployment n name = .ok d ∧ d.availableReplicas = 0)
    (hfuel : gp.podReadyTimeout / 1000000000 + 2 ≤ fuel) :
    ∃ gp1 c1,
      _choosePod k newLabels c.now fuel gp c =
        some (.error (.text "timeout: waited too long for pod to be ready"), gp1, c1) ∧
      gp.podReadyTimeout < c1.now - c.now := by
  obtain ⟨f, rfl⟩ : ∃ f, fuel = f + 1 := ⟨fuel - 1, by omega⟩
  obtain ⟨items, hitems, hready⟩ := hlist c.calls gp.deployment.matchLabels
  have htick : (c.tick k).now = c.now + k.latency c.calls := rfl
  obtain ⟨gp1, c1, hwait, helapsed⟩ :=
    waitForReadyPod_never_available k (c.tick k).now hdepl (f + 1) gp (c.tick k)
      (le_refl _) (by omega) (by omega)
  refine ⟨gp1, c1, ?_, by omega⟩
  rw [_choosePod]
  simp only [Nat.sub_self, gt_iff_lt, Nat.not_lt_zero, if_false, hitems, hready, hwait]

/-- C12, amended, at a concrete input: the sample pool with its five-minute
timeout against an orchestrator that never reports a ready pod. -/
theorem choosePod_never_ready_witness :
    ∃ gp1 c1,
      _choosePod neverReadyKube [] (0 : Nat) 302 (samplePool 2 "single") { now := 0, calls := 0 } =
        some (.error (.text "timeout: waited too long for pod to be ready"), gp1, c1) ∧
      (samplePool 2 "single").podReadyTimeout < c1.now - 0 :=
  choosePod_never_ready neverReadyKube [] 302 (samplePool 2 "single") { now := 0, calls := 0 }
    (fun _ _ => ⟨[pendingPod], rfl, rfl⟩) (fun _ _ => ⟨_, rfl, rfl⟩) (by decide)

/-- C12 fails as stated: with the five-minute timeout, listings that never hold a
ready pod, a Deployment that never has an available replica and no failing
call, `_choosePod` returns after 301 seconds with the message of
`waitForReadyPod`, which is not `timeout: waited too long to get a ready pod`. -/
theorem choosePod_never_ready_message :
    (samplePool 2 "single").podReadyTimeout = 300000000000 ∧
    readyPods [pendingPod] = [] ∧
    _choosePod neverReadyKube [] 0 302 (samplePool 2 "single") { now := 0, calls := 0 } =
      some (.error (.text "timeout: waited too long for pod to be ready"),
        samplePool 2 "single", { now := 301000000000, calls := 303 }) ∧
    GoError.text "timeout: waited too long for pod to be ready" ≠
      GoError.text "timeout: waited too long to get a ready pod" := by
  refine ⟨rfl, rfl, ?_, by decide⟩
  set_option maxRecDepth 100000 in
  rfl

/-! ## Specialization: the sleep schedule -/

/-- After `i < 20` dial errors `specializePod` is at attempt `i`: its result is
decided by the rest of the loop, and its actions so far are the fetch phase and
the `i` retried attempts. -/
theorem specializePod_after_dials (gp : GenericPool) (w : SpecializeWorld) (pod : Pod)
    (m : ObjectMeta) (fn : Function) (body : String) (i : Nat)
    (hload : ReachesLoad gp w pod m fn body) (hi : i < 20)
    (hprev : ∀ j, j < i →
      ∃ err, w.post j (loadAttempt gp w pod.status.podIP body) = .failed err ∧
        isDialError err = true) :
    specializePod gp w pod m =
      ((specializeLoop gp w pod.status.podIP body 20 (20 - i) i).1.toError,
        fetchPhase gp w pod fn ++
          (dialRetries (loadAttempt gp w pod.status.podIP body) i 0 ++
            (specializeLoop gp w pod.status.podIP body 20 (20 - i) i).2)) := by
  have hpre := specializeLoop_dial_prefix gp w pod.status.podIP body 20 i 20 0
    (fun j _ hj => hprev j (by omega)) (by omega) (by omega)
  rw [Nat.zero_add] at hpre
  rw [specializePod_of_reachesLoad gp w pod m fn body hload, hpre]

/-- Every iteration of the loop starts by posting the load request. -/
theorem specializeLoop_starts_with_post (gp : GenericPool) (w : SpecializeWorld)
    (podIP body : String) (maxRetries remaining i : Nat) :
    ∃ rest, (specializeLoop gp w podIP body maxRetries (remaining + 1) i).2 =
      .post (loadAttempt gp w podIP body) :: rest := by
  rw [specializeLoop]
  cases w.post i (loadAttempt gp w podIP body) with
  | response statusCode =>
    by_cases hs : statusCode < 300
    · exact ⟨[], by simp [hs]⟩
    · exact ⟨[], by simp [hs]⟩
  | failed err =>
    by_cases hc : (isDialError err && decide (i < maxRetries - 1)) = true
    · exact ⟨.sleep (retrySleep i) ::
        (specializeLoop gp w podIP body maxRetries remaining (i + 1)).2,
        by simp only [hc, if_true]⟩
    · exact ⟨[], by simp [hc]⟩

/-- The last of `n + 1` retried attempts is attempt `i + n` with its sleep. -/
theorem dialRetries_succ (req : HttpPost) (n i : Nat) :
    dialRetries req (n + 1) i =
      dialRetries req n i ++ [.post req, .sleep (retrySleep (i + n))] := by
  induction n generalizing i with
  | zero => simp [dialRetries]
  | succ n ih =>
    rw [dialRetries, ih (i + 1)]
    have e : i + 1 + n = i + (n + 1) := by omega
    rw [e]
    simp [dialRetries]

/-- C13: in the load phase of `specializePod`, when attempts `0..i` with `i < 19`
fail with dial errors, the post of attempt `i` is followed by a sleep of exactly
`500 * (2 * i)` milliseconds (given in nanoseconds) and then by the post of
attempt `i + 1`; the load phase starts with the post of attempt 0, so no sleep
precedes it, and the sleep after attempt 0 is 0.  Consequently, when the runtime
refuses the connection 3 times and then answers with status below 300,
`specializePod` makes 4 attempts, returns nil, and has slept 3000 ms between the
attempts, which is at least `3 * 500` ms. -/
theorem specializePod_sleep_schedule (gp : GenericPool) (w : SpecializeWorld) (pod : Pod)
    (m : ObjectMeta) (fn : Function) (body : String)
    (hload : ReachesLoad gp w pod m fn body) :
    (∀ i, i < 19 →
      (∀ j, j ≤ i → ∃ err, w.post j (loadAttempt gp w pod.status.podIP body) = .failed err ∧
        isDialError err = true) →
      ∃ rest, (specializePod gp w pod m).2 =
        fetchPhase gp w pod fn ++
          (dialRetries (loadAttempt gp w pod.status.podIP body) i 0 ++
            (.post (loadAttempt gp w pod.status.podIP body) ::
              .sleep (500 * (2 * i) * 1000000) ::
              .post (loadAttempt gp w pod.status.podIP body) :: rest))) ∧
    retrySleep 0 = 0 ∧
    ((∀ j, j < 3 → ∃ err, w.post j (loadAttempt gp w pod.status.podIP body) = .failed err ∧
        isDialError err = true) →
      ∀ statusCode, w.post 3 (loadAttempt gp w pod.status.podIP body) = .response statusCode →
        statusCode < 300 →
        specializePod gp w pod m =
          (none, fetchPhase gp w pod fn ++
            (dialRetries (loadAttempt gp w pod.status.podIP body) 3 0 ++
              [.post (loadAttempt gp w pod.status.podIP body)])) ∧
        countPosts (specializePod gp w pod m).2 = 4 ∧
        totalSleep (dialRetries (loadAttempt gp w pod.status.podIP body) 3 0)
          = 3000 * 1000000 ∧
        3 * 500 * 1000000 ≤ totalSleep (specializePod gp w pod m).2) := by
  refine ⟨?_, by simp [retrySleep], ?_⟩
  · intro i hi hdial
    have h := specializePod_after_dials gp w pod m fn body (i + 1) hload (by omega)
      (fun j hj => hdial j (by omega))
    obtain ⟨r, hr⟩ : ∃ r, 20 - (i + 1) = r + 1 := ⟨20 - (i + 1) - 1, by omega⟩
    obtain ⟨rest, hrest⟩ :=
      specializeLoop_starts_with_post gp w pod.status.podIP body 20 r (i + 1)
    refine ⟨rest, ?_⟩
    rw [h, hr, hrest, dialRetries_succ]
    simp [retrySleep]
  · intro hdial statusCode hpost hstatus
    have h := specializePod_after_dials gp w pod m fn body 3 hload (by decide) hdial
    have hlast : specializeLoop gp w pod.status.podIP body 20 (20 - 3) 3 =
        (.success, [.post (loadAttempt gp w pod.status.podIP body)]) := by
      show specializeLoop gp w pod.status.podIP body 20 (16 + 1) 3 = _
      rw [specializeLoop]
      simp [hpost, hstatus]
    rw [hlast] at h
    have hsleep : totalSleep (dialRetries (loadAttempt gp w pod.status.podIP body) 3 0)
        = 3000 * 1000000 := by
      simp [dialRetries, totalSleep, retrySleep]
    refine ⟨h, ?_, hsleep, ?_⟩
    · rw [h]
      simp only [countPosts_append, countPosts_fetchPhase, countPosts_dialRetries]
      rfl
    · rw [h]
      simp only [totalSleep_append, hsleep]
      omega

/-- C13, at a concrete input: three refused connections, then status 200. -/
theorem specializePod_sleep_schedule_witness :
    countPosts (specializePod (samplePool 2 "single")
      (sampleWorld fun i => if i < 3 then .failed dialError else .response 200)
      samplePod sampleFunction.metadata).2 = 4 ∧
    3 * 500 * 1000000 ≤ totalSleep (specializePod (samplePool 2 "single")
      (sampleWorld fun i => if i < 3 then .failed dialError else .response 200)
      samplePod sampleFunction.metadata).2 :=
  have h := (specializePod_sleep_schedule (samplePool 2 "single")
    (sampleWorld fun i => if i < 3 then .failed dialError else .response 200)
    samplePod sampleFunction.metadata sampleFunction "filePath=/userfunc/U"
    ⟨by decide, rfl, rfl, rfl⟩).2.2
    (fun j hj => ⟨dialError, by
      show (if j < 3 then PostResult.failed dialError else PostResult.response 200) = _
      rw [if_pos hj], rfl⟩) 200 rfl (by decide)
  ⟨h.2.1, h.2.2.2⟩

/-! ## URLs -/

/-- C14: with `TEST_FETCHER_URL` and `TEST_SPECIALIZE_URL` unset, for every pod IP
string: if it parses as an IP address and contains a colon, `getFetcherUrl`
returns `http://[<ip>]:8000/` and `getSpecializeUrl` a URL that begins
`http://[<ip>]:8888`; otherwise they return `http://<ip>:8000/` and a URL that
begins `http://<ip>:8888`, without brackets.  In both cases `getSpecializeUrl`
appends `/specialize` for version 1 and `/v<version>/specialize` for every other
version, and `getFetcherUrl` does not sleep. -/
theorem urls_bracket_ipv6 (w : SpecializeWorld) (podIP : String)
    (hf : w.testFetcherUrl = "") (hs : w.testSpecializeUrl = "") :
    ((w.parseIP podIP = true ∧ ':' ∈ podIP.toList) →
      IsIPv6 w.parseIP podIP = true ∧
      getFetcherUrl w podIP = ("http://[" ++ podIP ++ "]:8000/", []) ∧
      getSpecializeUrl w podIP 1 = "http://[" ++ podIP ++ "]:8888" ++ "/specialize" ∧
      ∀ version : Int, version ≠ 1 →
        getSpecializeUrl w podIP version =
          "http://[" ++ podIP ++ "]:8888" ++ "/v" ++ toString version ++ "/specialize") ∧
    (¬ (w.parseIP podIP = true ∧ ':' ∈ podIP.toList) →
      IsIPv6 w.parseIP podIP = false ∧
      getFetcherUrl w podIP = ("http://" ++ podIP ++ ":8000/", []) ∧
      getSpecializeUrl w podIP 1 = "http://" ++ podIP ++ ":8888" ++ "/specialize" ∧
      ∀ version : Int, version ≠ 1 →
        getSpecializeUrl w podIP version =
          "http://" ++ podIP ++ ":8888" ++ "/v" ++ toString version ++ "/specialize") := by
  have hv6 : IsIPv6 w.parseIP podIP = true ↔ (w.parseIP podIP = true ∧ ':' ∈ podIP.toList) := by
    simp [IsIPv6, containsColon]
  constructor
  · intro h
    have h6 : IsIPv6 w.parseIP podIP = true := hv6.mpr h
    refine ⟨h6, ?_, ?_, ?_⟩
    · simp [getFetcherUrl, hf, h6]
    · simp [getSpecializeUrl, hs, h6]
    · intro version hne
      simp [getSpecializeUrl, hs, h6, hne]
  · intro h
    have h6 : IsIPv6 w.parseIP podIP = false := by
      cases hb : IsIPv6 w.parseIP podIP with
      | false => rfl
      | true => exact absurd (hv6.mp hb) h
    refine ⟨h6, ?_, ?_, ?_⟩
    · simp [getFetcherUrl, hf, h6]
    · simp [getSpecializeUrl, hs, h6]
    · intro version hne
      simp [getSpecializeUrl, hs, h6, hne]

/-- C14, at concrete inputs: an IPv6 and an IPv4 pod address. -/
theorem urls_bracket_ipv6_witness :
    (getFetcherUrl (sampleWorld fun _ => .response 200) "fd00::1").1 = "http://[fd00::1]:8000/" ∧
    getSpecializeUrl (sampleWorld fun _ => .response 200) "fd00::1" 2
      = "http://[fd00::1]:8888/v2/specialize" ∧
    getSpecializeUrl (sampleWorld fun _ => .response 200) "10.0.0.1" 1
      = "http://10.0.0.1:8888/specialize" :=
  have h6 := (urls_bracket_ipv6 (sampleWorld fun _ => .response 200) "fd00::1" rfl rfl).1
    ⟨rfl, by decide⟩
  have h4 := (urls_bracket_ipv6 (sampleWorld fun _ => .response 200) "10.0.0.1" rfl rfl).2
    (by decide)
  ⟨congrArg Prod.fst h6.2.1, h6.2.2.2 2 (by decide), h4.2.2.1⟩

/-! ## Destroying a pool -/

theorem deleteEach_calls (delete : Nat → String → Option GoError)
    (call : String → DestroyCall) (n : Nat) (names : List String) :
    (deleteEach delete call n names).1 = names.map call := by
  induction names generalizing n with
  | nil => rfl
  | cons name names ih =>
    rw [deleteEach]
    cases delete n name <;> simp [ih]

/-- C15: `destroy` returns a non-nil error if and only if deleting the Deployment
fails, and then that deletion is the only call it attempts (no ReplicaSet or pod
is listed or deleted).  When the Deployment deletion succeeds, `destroy` lists
the pool-labeled ReplicaSets and attempts to delete every listed one, then lists
the pool-labeled pods and attempts to delete every listed one, and returns nil
whatever errors those listings and deletions return. -/
theorem destroy_error_iff_deployment (dw : DestroyWorld) (gp : GenericPool) :
    ((destroy dw gp).err ≠ none ↔ dw.deleteDeployment 0 gp.deployment.name ≠ none) ∧
    (∀ err, dw.deleteDeployment 0 gp.deployment.name = some err →
      (destroy dw gp).err = some err ∧
      (destroy dw gp).calls = [.deleteDeployment gp.deployment.name]) ∧
    (dw.deleteDeployment 0 gp.deployment.name = none →
      (destroy dw gp).err = none ∧
      (destroy dw gp).calls =
        [.deleteDeployment gp.deployment.name, .listReplicaSets gp.labelsForPool] ++
          (dw.listReplicaSets 1 gp.labelsForPool).1.map .deleteReplicaSet ++
          [.listPods gp.labelsForPool] ++
          (dw.listPods (2 + (dw.listReplicaSets 1 gp.labelsForPool).1.length)
            gp.labelsForPool).1.map .deletePod) := by
  unfold destroy
  cases hdel : dw.deleteDeployment 0 gp.deployment.name with
  | some err => simp
  | none => simp [deleteEach_calls]

/-- C15, at concrete inputs: a failing Deployment deletion; and a successful one
followed by a failing ReplicaSet listing and failing pod deletions. -/
theorem destroy_error_iff_deployment_witness :
    ((destroy (sampleDestroyWorld true) (samplePool 2 "single")).err =
        some (.external "deployment not deleted") ∧
      (destroy (sampleDestroyWorld true) (samplePool 2 "single")).calls =
        [.deleteDeployment "py-e-abcdefgh"]) ∧
    (destroy (sampleDestroyWorld false) (samplePool 2 "single")).err = none ∧
    (destroy (sampleDestroyWorld false) (samplePool 2 "single")).calls =
      [.deleteDeployment "py-e-abcdefgh", .listReplicaSets samplePoolLabels,
        .listPods samplePoolLabels, .deletePod "pod-1", .deletePod "pod-2"] :=
  have h1 := (destroy_error_iff_deployment (sampleDestroyWorld true) (samplePool 2 "single")).2.1
    (.external "deployment not deleted") rfl
  have h2 := (destroy_error_iff_deployment (sampleDestroyWorld false)
    (samplePool 2 "single")).2.2 rfl
  ⟨h1, h2.1, h2.2⟩

end Poolmgr
